import Mathlib

/-!
Shallow embedding of the topology / schedule resolution engine of
`Plugwise_Smile/Smile.py` (class `Smile`), together with proofs about it.

Modelling conventions used throughout:

* Python `dict`s are ordered association lists `List (κ × ν)`; `dinsert`
  reproduces Python assignment (overwrite keeps the original position, a new
  key is appended), `alookup` is keyed access.
* XML documents are structured records holding exactly the facts the code
  reads through `find`/`findall` (element text, attributes, child presence).
* Python `float` values originating from decimal literals are modelled as
  exact rationals; `nearestDouble` maps a rational to the exact value of the
  nearest IEEE-754 binary64 number (round to nearest, ties to even; normal
  range only, sub-normals and overflow are outside the measurement domain),
  so rounding/formatting chains such as
  `float("{:.2f}".format(round(float(s), 2)))` are modelled exactly.
* `int(...)`/`float(...)` string parsing is modelled for sign + digits
  (+ optional fractional part and exponent for `float`); whitespace,
  underscores and `inf`/`nan` spellings are outside the modelled grammar.
* A raised Python exception is modelled as `none`/`Option`; functions that
  also mutate fields of the long-lived `Smile` object additionally return the
  updated mutable state (the field writes in the source precede the reads and
  the possible raise points, which is what makes this factoring exact).
-/

/-- First-match keyed lookup in an ordered association list (Python `d[k]`
    / `d.get(k)`). -/
def alookup {α β : Type} [DecidableEq α] (k : α) : List (α × β) → Option β
  | [] => none
  | p :: t => if p.1 = k then some p.2 else alookup k t

/-- Python dict assignment `d[k] = v`: overwriting keeps the original
    position of the key, a fresh key is appended at the end. -/
def dinsert {α β : Type} [DecidableEq α] (k : α) (v : β) (d : List (α × β)) :
    List (α × β) :=
  if (alookup k d).isSome then d.map (fun p => if p.1 = k then (k, v) else p)
  else d ++ [(k, v)]

/-- Numeric value of a digit string (all characters assumed to be digits). -/
def digitsVal (l : List Char) : ℕ :=
  l.foldl (fun n c => 10 * n + (c.toNat - 48)) 0

/-- Parse a non-empty all-digit string. -/
def parseDigits (l : List Char) : Option ℕ :=
  if l ≠ [] ∧ l.all (·.isDigit) then some (digitsVal l) else none

/-- Strip a leading sign, returning (isNegative, rest). -/
def stripSign : List Char → Bool × List Char
  | '+' :: t => (false, t)
  | '-' :: t => (true, t)
  | l => (false, l)

/-- Python `int(s)` on a sign+digits string (whitespace and underscore forms
    are outside the modelled grammar). -/
def pyIntParse (s : String) : Option ℤ :=
  let p := stripSign s.data
  (parseDigits p.2).map (fun n => if p.1 then -(n : ℤ) else (n : ℤ))

/-- Parse `digits [. digits]` (at least one digit overall) as an exact
    rational. -/
def parsePointNum (l : List Char) : Option ℚ :=
  let ip := l.takeWhile (·.isDigit)
  let rest := l.drop ip.length
  match rest with
  | [] => if ip = [] then none else some ((digitsVal ip : ℚ))
  | '.' :: fp =>
    if fp.all (·.isDigit) ∧ (ip ≠ [] ∨ fp ≠ []) then
      some ((digitsVal ip : ℚ) + (digitsVal fp : ℚ) / (10 : ℚ) ^ fp.length)
    else none
  | _ => none

/-- Python `float(s)` on `[sign] digits [. digits] [(e|E) [sign] digits]`,
    as the exact rational value of the decimal literal. -/
def pyFloatParse (s : String) : Option ℚ :=
  let p := stripSign s.data
  let mant := p.2.takeWhile (fun c => c ≠ 'e' ∧ c ≠ 'E')
  let rest := p.2.drop mant.length
  match parsePointNum mant with
  | none => none
  | some m =>
    let v? : Option ℚ :=
      match rest with
      | [] => some m
      | _ :: et =>
        let ep := stripSign et
        match parseDigits ep.2 with
        | some e => some (if ep.1 then m / (10 : ℚ) ^ e else m * (10 : ℚ) ^ e)
        | none => none
    v?.map (fun v => if p.1 then -v else v)

/-- Nearest integer to a rational, ties to even. -/
def nhalfEven (m : ℚ) : ℤ :=
  if 1 < 2 * (m - (⌊m⌋ : ℚ)) then ⌊m⌋ + 1
  else if 2 * (m - (⌊m⌋ : ℚ)) < 1 then ⌊m⌋
  else if ⌊m⌋ % 2 = 0 then ⌊m⌋ else ⌊m⌋ + 1

/-- Fuel-driven floor base-2 logarithm (structural recursion, so it reduces
    inside the kernel). -/
def natLog2Aux : ℕ → ℕ → ℕ
  | 0, _ => 0
  | fuel + 1, n => if n ≤ 1 then 0 else natLog2Aux fuel (n / 2) + 1

/-- Floor base-2 logarithm of a natural number. -/
def natLog2 (n : ℕ) : ℕ := natLog2Aux n n

/-- For `q > 0`, the exponent `e` with `2 ^ e ≤ q < 2 ^ (e + 1)`. -/
def expOf (q : ℚ) : ℤ :=
  let e0 : ℤ := (natLog2 q.num.toNat : ℤ) - (natLog2 q.den : ℤ)
  if (2 : ℚ) ^ e0 ≤ q then e0 else e0 - 1

/-- Exact value of the IEEE-754 binary64 double nearest to the rational `q`
    (round to nearest, ties to even; normal range). -/
def nearestDouble (q : ℚ) : ℚ :=
  if q = 0 then 0
  else if q < 0 then
    -((nhalfEven (-q / (2 : ℚ) ^ (expOf (-q) - 52)) : ℚ) * (2 : ℚ) ^ (expOf (-q) - 52))
  else (nhalfEven (q / (2 : ℚ) ^ (expOf q - 52)) : ℚ) * (2 : ℚ) ^ (expOf q - 52)

/-- Round a rational to `n` decimal places, ties to even (CPython rounds a
    float to decimal digits by correctly rounding its exact binary value). -/
def decRound (q : ℚ) (n : ℕ) : ℚ := (nhalfEven (q * (10 : ℚ) ^ n) : ℚ) / (10 : ℚ) ^ n

/-- Exact decimal produced by `float("{:.nf}".format(round(d, n)))` where `d`
    is the double nearest to `q` (the format/parse round trip returns the
    decimal rounding of `d` itself). -/
def pyRoundFmt (q : ℚ) (n : ℕ) : ℚ := decRound (nearestDouble q) n

/-- A Python value stored in a device-data dictionary. -/
inductive DVal where
  | vInt : ℤ → DVal
  | vFloat : ℚ → DVal
  | vBool : Bool → DVal
  | vStr : String → DVal
  | vNone : DVal
  | vPresets : Option (List (String × (ℚ × ℚ))) → DVal
  | vNames : List (Option String) → DVal
  deriving DecidableEq

/-- `Smile._format_measure`: try `int`, then `float` (2 decimals below 10,
    1 decimal otherwise), then the literals `"on"`/`"off"`, else the raw
    text. -/
def _format_measure (measure : String) : DVal :=
  match pyIntParse measure with
  | some n => .vInt n
  | none =>
    match pyFloatParse measure with
    | some q =>
      if nearestDouble q < 10 then .vFloat (pyRoundFmt q 2)
      else .vFloat (pyRoundFmt q 1)
    | none =>
      if measure = "on" then .vBool true
      else if measure = "off" then .vBool false
      else .vStr measure

/-- `Smile.in_between`: half-open day-time interval membership with
    wrap-around when `start > stop`. -/
def in_between (now start stop : ℚ) : Bool :=
  if start ≤ stop then decide (start ≤ now ∧ now < stop)
  else decide (start ≤ now ∨ now < stop)

/-- Is the first character list an initial segment of the second? -/
def listPre : List Char → List Char → Bool
  | [], _ => true
  | _ :: _, [] => false
  | a :: as, b :: bs => a = b && listPre as bs

/-- Does the second character list contain the first as a contiguous run? -/
def listSub (p : List Char) : List Char → Bool
  | [] => listPre p []
  | c :: t => listPre p (c :: t) || listSub p t

/-- Python substring containment `sub in s`. -/
def strContains (sub s : String) : Bool := listSub sub.data s.data

/-- Key of a location dictionary entry: either the legacy sentinel `0` or an
    XML location id string. -/
inductive LocKey where
  | zero : LocKey
  | lid : String → LocKey
  deriving DecidableEq

/-- Key of an appliance dictionary entry: an id string, or Python `None`
    (the legacy power branch keys its synthetic entry by the
    `_home_location` field, which may be unset). -/
abbrev AppKey := Option String

/-- A `point_log` element: its `type` text, its `period/measurement` text and
    the optional `electricity_point_meter` child (with its optional `id`
    attribute). -/
structure PointLog where
  ptype : String
  text : String
  meter : Option (Option String)
  deriving DecidableEq

/-- An `appliance` element, holding exactly the facts `Smile` reads. -/
structure Appliance where
  id : String
  cls : String
  name : String
  location : Option String
  pointLogs : List PointLog
  intervalLogs : List (String × String)
  cumulativeLogs : List (String × String)
  hasRelay : Bool
  hasThermoFunc : Bool
  deriving DecidableEq

/-- A `location` element of the LOCATIONS document. -/
structure LocationEl where
  id : String
  name : String
  memberIds : List String
  hasServices : Bool
  pointLogs : List PointLog
  deriving DecidableEq

/-- A `measurement` element with its attributes and text. -/
structure Meas where
  attrs : List (String × String)
  text : String
  deriving DecidableEq

/-- A log element (`point_log` / `interval_log` / `cumulative_log`) under a
    location's `logs`, with its measurements. -/
structure DLog where
  tag : String
  mtype : String
  measurements : List Meas
  deriving DecidableEq

/-- A `location` element as seen inside DIRECT_OBJECTS / DOMAIN_OBJECTS. -/
structure DomLocation where
  id : String
  presetText : Option String
  pointLogs : List PointLog
  logs : Option (List DLog)
  deriving DecidableEq

/-- A schedule/preset rule directive (`<directive time=.. preset=..><then ../>`). -/
structure Directive where
  time : Option String
  preset : Option String
  thenAttrs : List (String × String)
  deriving DecidableEq

/-- A `rule` element of DOMAIN_OBJECTS. -/
structure Rule where
  rid : String
  name : Option String
  activeText : Option String
  templateTag : Option String
  contextLocIds : List String
  directives : Option (List Directive)
  whenThen : Option (List (String × String))
  modifiedSecs : ℚ
  deriving DecidableEq

/-- The DOMAIN_OBJECTS document. -/
structure DomainObjects where
  rules : List Rule
  appliances : List Appliance
  locations : List DomLocation
  deriving DecidableEq

/-- The DIRECT_OBJECTS document. -/
structure DirectObjects where
  appliances : List Appliance
  locations : List DomLocation
  deriving DecidableEq

/-- One poll cycle's four documents. -/
structure Snapshot where
  appliancesDoc : List Appliance
  locationsDoc : List LocationEl
  directObjects : DirectObjects
  domainObjects : DomainObjects
  deriving DecidableEq

/-- Connection-time constants of a `Smile` object. -/
structure Config where
  legacy : Bool
  stype : String
  smileName : String
  deriving DecidableEq

/-- The mutable fields of the long-lived `Smile` object that the resolution
    pipeline writes (`gateway_id`, `heater_id`, `_home_location`,
    `_thermo_master_id`). -/
structure MutState where
  gatewayId : Option String
  heaterId : Option String
  homeLocation : Option String
  thermoMasterId : Option String
  deriving DecidableEq

/-- Master/slave thermostat data added to a zone by `scan_thermostats`. -/
structure ThermoData where
  master : Option AppKey
  masterPrio : ℕ
  slaves : Finset AppKey
  deriving DecidableEq

/-- A location dictionary entry (the `thermo` field models the
    `master`/`master_prio`/`slaves` keys added by `scan_thermostats`). -/
structure LocData where
  name : String
  types : Finset String
  members : Finset String
  thermo : Option ThermoData
  deriving DecidableEq

/-- An appliance dictionary entry. -/
structure AppData where
  name : String
  types : Finset String
  cls : String
  location : Option LocKey
  deriving DecidableEq

/-- Python `str(k)` for an appliance key formatted into an XPath locator. -/
def pyStr (k : AppKey) : String :=
  match k with
  | some s => s
  | none => "None"

/-- Python `str(l)` for a location reference formatted into an XPath locator. -/
def locRefStr (l : Option LocKey) : String :=
  match l with
  | none => "None"
  | some .zero => "0"
  | some (.lid s) => s

/-- Python falsiness of a stored `location` value (`not details["location"]`):
    `None`, the int `0` and the empty string are falsy. -/
def pyFalsyLoc (l : Option LocKey) : Bool :=
  match l with
  | none => true
  | some .zero => true
  | some (.lid s) => s = ""

/-- `HOME_MEASUREMENTS` of the source, in order. -/
def HOME_MEASUREMENTS : List (String × String) :=
  [("electricity_consumed", "power"), ("electricity_produced", "power"),
   ("gas_consumed", "gas"), ("outdoor_temperature", "temperature")]

/-- `DEVICE_MEASUREMENTS` of the source, in order. -/
def DEVICE_MEASUREMENTS : List (String × String) :=
  [("thermostat", "setpoint"),
   ("temperature", "temperature"),
   ("schedule_temperature", "schedule_temperature"),
   ("battery", "battery"),
   ("valve_position", "valve_position"),
   ("temperature_difference", "temperature_difference"),
   ("electricity_consumed", "electricity_consumed"),
   ("electricity_produced", "electricity_produced"),
   ("relay", "relay"),
   ("outdoor_temperature", "outdoor_temperature"),
   ("intended_central_heating_state", "heating_state"),
   ("domestic_hot_water_state", "dhw_state"),
   ("boiler_temperature", "water_temperature"),
   ("return_water_temperature", "return_temperature"),
   ("central_heater_water_pressure", "water_pressure"),
   ("boiler_state", "boiler_state"),
   ("intended_boiler_state", "intended_boiler_state"),
   ("intended_boiler_temperature", "intended_boiler_temperature"),
   ("modulation_level", "modulation_level"),
   ("cooling_state", "cooling_state"),
   ("slave_boiler_state", "slave_boiler_state"),
   ("compressor_state", "compressor_state"),
   ("flame_state", "flame_state")]

/-- First `point_log` of the given `type` (XPath `find`). -/
def findLog (t : String) : List PointLog → Option PointLog
  | [] => none
  | l :: r => if l.ptype = t then some l else findLog t r

/-- First `(type, text)` pair with the given type in an interval/cumulative
    log list. -/
def findPair (t : String) : List (String × String) → Option String
  | [] => none
  | p :: r => if p.1 = t then some p.2 else findPair t r

/-- `Smile._types_finder`: capability tags detected from a node's point
    logs (`outdoor_temperature` always counts, electricity/gas only when the
    `electricity_point_meter` probe has a truthy `id`). -/
def _types_finder (logs : List PointLog) : Finset String :=
  HOME_MEASUREMENTS.foldl
    (fun types mm =>
      match findLog mm.1 logs with
      | none => types
      | some log =>
        let types1 := if mm.1 = "outdoor_temperature" then insert mm.2 types else types
        match log.meter with
        | none => types1
        | some idAttr => if (idAttr.getD "") ≠ "" then insert mm.2 types1 else types1)
    ∅

/-- The `_home_location` field value written by the main path of
    `get_all_locations`. -/
def homeStrOf (h : Option LocKey) : Option String :=
  match h with
  | none => none
  | some .zero => some "0"
  | some (.lid s) => some s

/-- Apply a recorded field effect (`none` = field untouched). -/
def applyHomeUpd (u : Option (Option String)) (h : Option String) : Option String :=
  match u with
  | none => h
  | some v => v

/-- `Smile.get_all_locations`: the locations dictionary, the returned
    `home_location`, and the effect on the `_home_location` field (which the
    legacy zero-locations branch leaves untouched). -/
def get_all_locations (cfg : Config) (snap : Snapshot) :
    List (LocKey × LocData) × Option LocKey × Option (Option String) :=
  if snap.locationsDoc.length = 0 ∧ cfg.legacy then
    ([(.zero, ⟨"Legacy", {"temperature"},
        snap.appliancesDoc.foldl (fun s a => insert a.id s) ∅, none⟩)],
      some .zero, none)
  else
    let r := snap.locationsDoc.foldl
      (fun (acc : List (LocKey × LocData) × Option LocKey) location =>
        let members : Finset String :=
          location.memberIds.foldl (fun s i => insert i s) ∅
        let p1 : Finset String × Option LocKey :=
          if location.name = "Home" then
            (insert "home" (∅ : Finset String) ∪ _types_finder location.pointLogs,
              some (.lid location.id))
          else (∅, acc.2)
        let p2 : String × Finset String × Option LocKey :=
          if cfg.legacy ∧ cfg.stype = "power" ∧ location.hasServices then
            ("Home", insert "power" (insert "home" p1.1), some (.lid location.id))
          else (location.name, p1.1, p1.2)
        (dinsert (.lid location.id) ⟨p2.1, p2.2.1, members, none⟩ acc.1, p2.2.2))
      ([], none)
    (r.1, r.2, some (homeStrOf r.2))

/-- Effect of one `get_all_appliances` call on the `_home_location` field
    (through its `get_all_locations` call). -/
def hmUpd (cfg : Config) (snap : Snapshot) (h : Option String) : Option String :=
  applyHomeUpd (get_all_locations cfg snap).2.2 h

/-- Effect of one `get_all_appliances` call on `heater_id`: the last
    `heater_central` appliance wins, an absent one keeps the old value, and
    the legacy power branch never reaches the scan. -/
def htUpd (cfg : Config) (snap : Snapshot) (h : Option String) : Option String :=
  if cfg.legacy ∧ cfg.stype = "power" then h
  else
    match (snap.appliancesDoc.filter (fun a => a.cls = "heater_central")).getLast? with
    | some a => some a.id
    | none => h

/-- Effect of one `get_all_appliances` call on `gateway_id` (forced equal to
    the heater id for legacy thermostats). -/
def gwUpd (cfg : Config) (snap : Snapshot) (gw ht : Option String) : Option String :=
  if cfg.legacy ∧ cfg.stype = "power" then gw
  else if cfg.legacy ∧ cfg.stype = "thermostat" then htUpd cfg snap ht
  else
    match (snap.appliancesDoc.filter (fun a => a.cls = "gateway")).getLast? with
    | some a => some a.id
    | none => gw

/-- The composite update that one `get_all_appliances` call performs on the
    mutable fields (the source's field writes all precede its reads, which
    lets the update be split off; `_thermo_master_id` is untouched here). -/
def appStateUpd (cfg : Config) (snap : Snapshot) (st : MutState) : MutState :=
  ⟨gwUpd cfg snap st.gatewayId st.heaterId, htUpd cfg snap st.heaterId,
    hmUpd cfg snap st.homeLocation, st.thermoMasterId⟩

/-- The "plug"/"thermostat" tag appended from actuator functionality (relay
    takes precedence). -/
def addedTag (a : Appliance) : Option String :=
  if a.hasRelay then some "plug"
  else if a.hasThermoFunc then some "thermostat"
  else none

/-- Final content of the home location's (aliased) types set after every
    location-less appliance added its functionality tag to it. -/
def sharedHomeTypes (snap : Snapshot) (homeTypes : Finset String) : Finset String :=
  snap.appliancesDoc.foldl
    (fun s a =>
      if a.cls ≠ "open_therm_gateway" ∧ a.location = none then
        match addedTag a with
        | some t => insert t s
        | none => s
      else s)
    homeTypes

/-- The appliance-dictionary building loop of `get_all_appliances` (`none`
    models the `KeyError` raised when a location-less appliance dereferences
    a missing home location). -/
def buildAppliances (cfg : Config) (snap : Snapshot) (heaterId gatewayId : AppKey)
    (locations : List (LocKey × LocData)) (home : Option LocKey) :
    Option (List (AppKey × AppData)) :=
  let hTypes : Option (Finset String) :=
    (home.bind (fun hk => alookup hk locations)).map
      (fun hd => sharedHomeTypes snap hd.types)
  snap.appliancesDoc.foldl
    (fun acc? a =>
      match acc? with
      | none => none
      | some acc =>
        if a.cls = "open_therm_gateway" then some acc
        else
          match a.location with
          | some l =>
            let types0 := _types_finder a.pointLogs
            let types := match addedTag a with
              | some t => insert t types0
              | none => types0
            some (dinsert (some a.id) ⟨a.name, types, a.cls, some (.lid l)⟩ acc)
          | none =>
            match hTypes with
            | none => none
            | some hts =>
              let key : AppKey :=
                if a.cls = "heater_central" then heaterId
                else if a.cls = "gateway" then gatewayId
                else some a.id
              let nm :=
                if a.cls = "heater_central" ∨ a.cls = "gateway" then cfg.smileName
                else a.name
              some (dinsert key ⟨nm, hts, a.cls, none⟩ acc))
    (some [])

/-- The appliance dictionary built by `get_all_appliances`, as a function of
    the (already updated) mutable fields it reads. -/
def gaaOut (cfg : Config) (snap : Snapshot) (gw ht hm : Option String) :
    Option (List (AppKey × AppData)) :=
  let g := get_all_locations cfg snap
  if cfg.legacy ∧ cfg.stype = "power" then
    some [(hm, ⟨"Smile P1", {"power", "home"}, "gateway", g.2.1⟩)]
  else buildAppliances cfg snap ht gw g.1 g.2.1

/-- `Smile.get_all_appliances`. -/
def get_all_appliances (cfg : Config) (snap : Snapshot) (st : MutState) :
    Option (List (AppKey × AppData)) × MutState :=
  let st' := appStateUpd cfg snap st
  (gaaOut cfg snap st'.gatewayId st'.heaterId st'.homeLocation, st')

/-- `Smile.match_locations`: locations augmented with the types of the
    appliances they host. -/
def match_locations (cfg : Config) (snap : Snapshot) (st : MutState) :
    Option (List (LocKey × LocData) × Option LocKey) × MutState :=
  let g := get_all_locations cfg snap
  let st1 : MutState :=
    ⟨st.gatewayId, st.heaterId, applyHomeUpd g.2.2 st.homeLocation, st.thermoMasterId⟩
  let r := get_all_appliances cfg snap st1
  match r.1 with
  | none => (none, r.2)
  | some appliances =>
    let locs := g.1.map (fun le =>
      let ts2 := appliances.foldl
        (fun ts ap => if ap.2.location = some le.1 then ts ∪ ap.2.types else ts)
        le.2.types
      (le.1, { le.2 with types := ts2 }))
    (some (locs, g.2.1), r.2)

/-- `thermo_matching` of `scan_thermostats`. -/
def thermoMatching : List (String × ℕ) :=
  [("thermostat", 3), ("zone_thermostat", 2), ("thermostatic_radiator_valve", 1)]

/-- Priority of a thermostat class (`none` when not a thermostat class). -/
def thermoPrio (cls : String) : Option ℕ := alookup cls thermoMatching

/-- One election step of `scan_thermostats`: a strictly higher priority
    demotes the current master into the slaves and crowns the candidate,
    anything else joins the slaves. -/
def electStep (t : ThermoData) (k : AppKey) (p : ℕ) : ThermoData :=
  if p > t.masterPrio then
    ⟨some k, p,
      match t.master with
      | some m => insert m t.slaves
      | none => t.slaves⟩
  else ⟨t.master, t.masterPrio, insert k t.slaves⟩

/-- Does an appliance entry belong to the zone being scanned
    (`loc_id == details["location"] or (legacy and not details["location"])`)? -/
def appMatchesZone (legacy : Bool) (loc : LocKey) (ad : AppData) : Prop :=
  ad.location = some loc ∨ (legacy = true ∧ pyFalsyLoc ad.location = true)

instance (legacy : Bool) (loc : LocKey) (ad : AppData) :
    Decidable (appMatchesZone legacy loc ad) := by
  unfold appMatchesZone; infer_instance

/-- Master/slave election of one zone: the inner appliance loop of
    `scan_thermostats`. -/
def locThermo (legacy : Bool) (apps : List (AppKey × AppData)) (loc : LocKey) :
    ThermoData :=
  apps.foldl
    (fun t ap =>
      match thermoPrio ap.2.cls with
      | some p => if appMatchesZone legacy loc ap.2 then electStep t ap.1 p else t
      | none => t)
    ⟨none, 0, ∅⟩

/-- The system-wide highest-priority thermostat tracking of
    `scan_thermostats` (second component: the pending `_thermo_master_id`
    assignment, `none` when never assigned). -/
def trackHigh (apps : List (AppKey × AppData)) (acc : ℕ × Option AppKey) :
    ℕ × Option AppKey :=
  apps.foldl
    (fun hp ap =>
      match thermoPrio ap.2.cls with
      | some p => if p > hp.1 then (p, some ap.1) else hp
      | none => hp)
    acc

/-- The location loop of `scan_thermostats`: initialize and fill
    master/slave data for each qualifying zone. -/
def scan_core (legacy : Bool) (locations : List (LocKey × LocData))
    (home : Option LocKey) (apps : List (AppKey × AppData)) :
    List (LocKey × LocData) × Option AppKey :=
  let r := locations.foldl
    (fun (acc : List (LocKey × LocData) × ℕ × Option AppKey) le =>
      if ("thermostat" ∈ le.2.types ∧ some le.1 ≠ home) ∨ (some le.1 = home ∧ legacy = true) then
        let t := locThermo legacy apps le.1
        let hp := trackHigh apps acc.2
        (acc.1 ++ [(le.1, { le.2 with thermo := some t })], hp)
      else (acc.1 ++ [(le.1, le.2)], acc.2))
    ([], 0, none)
  (r.1, r.2.2)

/-- `Smile.scan_thermostats`. -/
def scan_thermostats (cfg : Config) (snap : Snapshot) (st : MutState) :
    Option (List (LocKey × LocData) × Option LocKey) × MutState :=
  let m := match_locations cfg snap st
  match m.1 with
  | none => (none, m.2)
  | some lh =>
    let r := get_all_appliances cfg snap m.2
    match r.1 with
    | none => (none, r.2)
    | some apps =>
      let sc := scan_core cfg.legacy lh.1 lh.2 apps
      let st' : MutState :=
        ⟨r.2.gatewayId, r.2.heaterId, r.2.homeLocation,
          match sc.2 with
          | some k => k
          | none => r.2.thermoMasterId⟩
      (some (sc.1, lh.2), st')

/-- The per-entry rewrite `get_all_devices` applies to an appliance entry:
    an unset location becomes the home location, and an appliance sitting in
    the slaves set of its (explicit) location's scanned zone is re-classed
    `thermo_sensor`. -/
def devTransform (th : List (LocKey × LocData) × Option LocKey) (k : AppKey)
    (d : AppData) : AppData :=
  let d1 := if d.location = none then { d with location := th.2 } else d
  match d.location with
  | some lk =>
    match alookup lk th.1 with
    | some e =>
      match e.thermo with
      | some t => if k ∈ t.slaves then { d1 with cls := "thermo_sensor" } else d1
      | none => d1
    | none => d1
  | none => d1

/-- `Smile.get_all_devices`: appliances with unset locations replaced by the
    home location and slave thermostats re-classed as `thermo_sensor`. -/
def get_all_devices (cfg : Config) (snap : Snapshot) (st : MutState) :
    Option (List (AppKey × AppData)) × MutState :=
  let r := get_all_appliances cfg snap st
  match r.1 with
  | none => (none, r.2)
  | some appliances =>
    let s := scan_thermostats cfg snap r.2
    match s.1 with
    | none => (none, s.2)
    | some th =>
      (some (appliances.map (fun ap => (ap.1, devTransform th ap.1 ap.2))), s.2)

/-- Interval/cumulative log handling of one `get_appliance_data` measurement
    (the source reassigns `name`, so a cumulative entry found after an
    interval entry gets the already-suffixed name). -/
def intervalCumulative (a : Appliance) (m name0 : String)
    (data : List (String × DVal)) : List (String × DVal) :=
  let r1 : String × List (String × DVal) :=
    match findPair m a.intervalLogs with
    | some txt =>
      (name0 ++ "_interval", dinsert (name0 ++ "_interval") (_format_measure txt) data)
    | none => (name0, data)
  match findPair m a.cumulativeLogs with
  | some txt => dinsert (r1.1 ++ "_cumulative") (_format_measure txt) r1.2
  | none => r1.2

/-- One measurement of the `get_appliance_data` loop; `none` models the
    `ValueError` of `float(measure)` on a non-numeric water-pressure text. -/
def measStep (legacy : Bool) (a : Appliance)
    (acc? : Option (List (String × DVal))) (mn : String × String) :
    Option (List (String × DVal)) :=
  match acc? with
  | none => none
  | some data =>
    match findLog mn.1 a.pointLogs with
    | some log =>
      if legacy ∧ mn.1 = "domestic_hot_water_state" then some data
      else if mn.1 = "central_heater_water_pressure" then
        match pyFloatParse log.text with
        | none => none
        | some q =>
          if (3.5 : ℚ) < nearestDouble q then some data
          else some (intervalCumulative a mn.1 mn.2 (dinsert mn.2 (_format_measure log.text) data))
      else some (intervalCumulative a mn.1 mn.2 (dinsert mn.2 (_format_measure log.text) data))
    | none => some (intervalCumulative a mn.1 mn.2 data)

/-- `Smile.get_appliance_data`: merge measurements of every appliance
    element carrying the given id (legacy dialects search DOMAIN_OBJECTS). -/
def get_appliance_data (cfg : Config) (snap : Snapshot) (devId : AppKey) :
    Option (List (String × DVal)) :=
  let search := if cfg.legacy then snap.domainObjects.appliances else snap.appliancesDoc
  (search.filter (fun a => a.id = pyStr devId)).foldl
    (fun acc a => DEVICE_MEASUREMENTS.foldl (measStep cfg.legacy a) acc)
    (some [])

/-- `Smile.get_rule_ids_by_tag`: rules carrying the template tag; the stored
    value is the requested location when the rule's contexts mention it and
    Python `None` otherwise. -/
def get_rule_ids_by_tag (dom : DomainObjects) (tag : String) (loc : Option LocKey) :
    Option (List (String × Option LocKey)) :=
  let ids := dom.rules.foldl
    (fun acc rule =>
      if rule.templateTag = some tag then
        if locRefStr loc ∈ rule.contextLocIds then dinsert rule.rid loc acc
        else dinsert rule.rid (none : Option LocKey) acc
      else acc)
    []
  if ids ≠ [] then some ids else none

/-- `Smile.get_rule_ids_by_name`. -/
def get_rule_ids_by_name (dom : DomainObjects) (name : String) (loc : Option LocKey) :
    Option (List (String × Option LocKey)) :=
  let ids := dom.rules.foldl
    (fun acc rule =>
      if rule.name = some name ∧ locRefStr loc ∈ rule.contextLocIds then
        dinsert rule.rid loc acc
      else acc)
    []
  if ids ≠ [] then some ids else none

/-- `Smile.get_preset`: the active preset of a location (legacy reads the
    first active rule's `when/then` icon). -/
def get_preset (cfg : Config) (dom : DomainObjects) (loc : Option LocKey) :
    Option String :=
  if cfg.legacy then
    match ((dom.rules.filter (fun r => r.activeText = some "true")).filterMap
        (fun r => r.whenThen)).head? with
    | none => some "none"
    | some attrs =>
      match alookup "icon" attrs with
      | none => some "none"
      | some icon => some icon
  else
    ((dom.locations.filter (fun l => l.id = locRefStr loc)).filterMap
      (fun l => l.presetText)).head?

/-- `Smile.__get_presets_legacy`: icon/temperature pairs of all rule
    `when/then` directives (`none` models the `KeyError`/`ValueError` on a
    missing or non-numeric temperature attribute). -/
def get_presets_legacy (dom : DomainObjects) :
    Option (List (String × (ℚ × ℚ))) :=
  dom.rules.foldl
    (fun acc? r =>
      match acc? with
      | none => none
      | some acc =>
        match r.whenThen with
        | none => some acc
        | some attrs =>
          match alookup "icon" attrs with
          | none => some acc
          | some icon =>
            match alookup "temperature" attrs with
            | none => none
            | some t =>
              match pyFloatParse t with
              | none => none
              | some q => some (dinsert icon (q, (0 : ℚ)) acc))
    (some [])

/-- First rule carrying the id that has a `directives` element
    (XPath `rule[@id=..]/directives`). -/
def findRuleDirectives (dom : DomainObjects) (rid : String) : Option (List Directive) :=
  ((dom.rules.filter (fun r => r.rid = rid)).filterMap (fun r => r.directives)).head?

/-- One directive of a presets rule (`none` models the raises on an empty
    `then` attribute set, a missing attribute or a non-numeric setpoint). -/
def presetDirStep (acc? : Option (List (String × (ℚ × ℚ)))) (d : Directive) :
    Option (List (String × (ℚ × ℚ))) :=
  match acc? with
  | none => none
  | some presets =>
    match d.thenAttrs with
    | [] => none
    | (k0, _) :: _ =>
      match d.preset with
      | none => none
      | some pname =>
        if k0 = "setpoint" then
          match alookup "setpoint" d.thenAttrs with
          | none => none
          | some v =>
            match pyFloatParse v with
            | none => none
            | some q => some (dinsert pname (q, (0 : ℚ)) presets)
        else
          match alookup "heating_setpoint" d.thenAttrs,
              alookup "cooling_setpoint" d.thenAttrs with
          | some hv, some cv =>
            match pyFloatParse hv, pyFloatParse cv with
            | some hq, some cq => some (dinsert pname (hq, cq) presets)
            | _, _ => none
          | _, _ => none

/-- `Smile.get_presets` (`some none` is the Python `None` return, outer
    `none` a raise). -/
def get_presets (cfg : Config) (dom : DomainObjects) (loc : Option LocKey) :
    Option (Option (List (String × (ℚ × ℚ)))) :=
  if cfg.legacy then
    match get_presets_legacy dom with
    | none => none
    | some d => some (some d)
  else
    let rids? :=
      match get_rule_ids_by_tag dom "zone_setpoint_and_state_based_on_preset" loc with
      | some r => some r
      | none => get_rule_ids_by_name dom "Thermostat presets" loc
    match rids? with
    | none => some none
    | some rids =>
      match rids.foldl
          (fun acc? rp =>
            match acc? with
            | none => none
            | some presets =>
              match findRuleDirectives dom rp.1 with
              | none => none
              | some dirs => dirs.foldl presetDirStep (some presets))
          (some []) with
      | none => none
      | some presets => some (some presets)

/-- Current weekday and time-of-day handed to the schedule evaluation. -/
structure Now where
  weekday : ℕ
  time : ℚ
  deriving DecidableEq

/-- Split a character list at every occurrence of the separator (Python
    `s.split(sep)` for a one-character separator). -/
def splitOnChar (c : Char) : List Char → List (List Char)
  | [] => [[]]
  | a :: t =>
    if a = c then [] :: splitOnChar c t
    else
      match splitOnChar c t with
      | h :: r => (a :: h) :: r
      | [] => [[a]]

/-- Python `s.split(sep)` for a one-character separator, as strings. -/
def pySplit (c : Char) (s : String) : List String :=
  (splitOnChar c s.data).map String.mk

/-- The `days` dictionary of `get_schemas`. -/
def daysMap : List (String × ℕ) :=
  [("mo", 0), ("tu", 1), ("we", 2), ("th", 3), ("fr", 4), ("sa", 5), ("su", 6)]

/-- `datetime.strptime(s, "%H:%M")` as minutes since midnight. -/
def pyStrptimeHM (s : String) : Option ℕ :=
  match pySplit ':' s with
  | [h, m] =>
    let hd := h.data
    let md := m.data
    if hd ≠ [] ∧ hd.length ≤ 2 ∧ hd.all (·.isDigit) ∧
        md ≠ [] ∧ md.length ≤ 2 ∧ md.all (·.isDigit) then
      let hv := digitsVal hd
      let mv := digitsVal md
      if hv ≤ 23 ∧ mv ≤ 59 then some (hv * 60 + mv) else none
    else none
  | _ => none

/-- Python `s.replace(c, "")`. -/
def pyReplace (c : Char) (s : String) : String := String.mk (s.data.filter (· ≠ c))

/-- Parse an interval key `"[dow hh:mm,dow hh:mm)"` the way `get_schemas`
    does (`none` models the unpack/`strptime` raises; an unknown day name
    becomes the never-matching `days.get` default). -/
def parsePeriod (period : String) : Option (Option ℕ × ℕ × Option ℕ × ℕ) :=
  match pySplit ',' period with
  | [m1s, m2s] =>
    let m1 := pySplit ' ' (pyReplace '[' m1s)
    let m2 := pySplit ' ' (pyReplace ')' m2s)
    match m1.get? 0, m1.get? 1, m2.get? 0, m2.get? 1 with
    | some d1, some t1, some d2, some t2 =>
      match pyStrptimeHM t1, pyStrptimeHM t2 with
      | some s, some e => some (alookup d1 daysMap, s, alookup d2 daysMap, e)
      | _, _ => none
    | _, _, _, _ => none
  | _ => none

/-- One interval of the `get_schemas` time-table loop: a matching day whose
    window contains "now" overwrites the schedule temperature. -/
def schedTempStep (now : Now) (acc : Option ℚ) (pt : String × ℚ) :
    Option (Option ℚ) :=
  match parsePeriod pt.1 with
  | none => none
  | some p =>
    if p.1 = some now.weekday ∨ p.2.2.1 = some now.weekday then
      if in_between now.time (p.2.1 : ℚ) (p.2.2.2 : ℚ) then some (some pt.2) else some acc
    else some acc

/-- One directive of a schedule rule: map its interval key to a literal or
    preset-derived setpoint. -/
def schedDirStep (cfg : Config) (dom : DomainObjects) (loc : Option LocKey)
    (s? : Option (List (String × ℚ))) (d : Directive) : Option (List (String × ℚ)) :=
  match s? with
  | none => none
  | some scheds =>
    match d.thenAttrs with
    | [] => none
    | (k0, _) :: _ =>
      if k0 = "preset" then
        match d.time, alookup "preset" d.thenAttrs with
        | some tme, some pname =>
          match get_presets cfg dom loc with
          | none => none
          | some none => none
          | some (some presets) =>
            match alookup pname presets with
            | none => none
            | some pv => some (dinsert tme pv.1 scheds)
        | _, _ => none
      else
        match d.time, alookup "setpoint" d.thenAttrs with
        | some tme, some v =>
          match pyFloatParse v with
          | none => none
          | some q => some (dinsert tme q scheds)
        | _, _ => none

/-- The per-rule loop of the non-legacy `get_schemas` path; the `Bool`
    result marks the early `return` taken when a rule has no `directives`
    element. -/
def schemasLoop (cfg : Config) (dom : DomainObjects) (loc : Option LocKey) (now : Now) :
    List (String × Option LocKey) → List (Option String × Bool) → Option ℚ →
    Option (List (Option String × Bool) × Option ℚ × Bool)
  | [], acc, cur => some (acc, cur, false)
  | rp :: rest, acc, cur =>
    match (dom.rules.filter (fun r => r.rid = rp.1)).head? with
    | none => none
    | some rule =>
      let active? : Option Bool :=
        if rp.2 = loc then
          match rule.activeText with
          | none => none
          | some t => some (t = "true")
        else some false
      match active? with
      | none => none
      | some active =>
        let acc1 := dinsert rule.name active acc
        match findRuleDirectives dom rp.1 with
        | none => some (acc1, cur, true)
        | some dirs =>
          match dirs.foldl (schedDirStep cfg dom loc) (some []) with
          | none => none
          | some scheds =>
            match scheds.foldl
                (fun c? pt =>
                  match c? with
                  | none => none
                  | some c => schedTempStep now c pt)
                (some cur) with
            | none => none
            | some cur1 => schemasLoop cfg dom loc now rest acc1 cur1

/-- `Smile.determine_selected`. -/
def determine_selected (available : List (Option String)) (selected : Option String)
    (schemas : List (Option String × Bool)) : List (Option String) × Option String :=
  schemas.foldl (fun acc p => (acc.1 ++ [p.1], if p.2 then p.1 else acc.2))
    (available, selected)

/-- `Smile.get_schemas`: available schedule names, the selected one, and the
    schedule temperature implied by "now". -/
def get_schemas (cfg : Config) (dom : DomainObjects) (loc : Option LocKey) (now : Now) :
    Option (List (Option String) × Option String × Option ℚ) :=
  if cfg.legacy then
    let name := dom.rules.foldl
      (fun acc r =>
        match r.name with
        | some rn => if rn ≠ "" ∧ ¬strContains "preset" rn then some rn else acc
        | none => acc)
      (none : Option String)
    let active :=
      match ((dom.appliances.filter (fun a => a.cls = "thermostat")).filterMap
          (fun a => findLog "schedule_state" a.pointLogs)).head? with
      | some log => log.text = "on"
      | none => false
    let schemas : List (Option String × Bool) :=
      match name with
      | some n => [(some n, active)]
      | none => []
    let av := determine_selected [] none schemas
    some (av.1, av.2, none)
  else
    match get_rule_ids_by_tag dom "zone_preset_based_on_time_and_presence_with_override" loc with
    | none => some ([], none, none)
    | some rids =>
      match schemasLoop cfg dom loc now rids [] none with
      | none => none
      | some r =>
        if r.2.2 then some ([], none, r.2.1)
        else
          let av := determine_selected [] none r.1
          some (av.1, av.2, r.2.1)

/-- `Smile.get_last_active_schema`: the location-scoped schedule rule with
    the most recent modification time (a stable ascending sort is read at its
    last index, so ties go to the last-inserted name). -/
def get_last_active_schema (dom : DomainObjects) (loc : Option LocKey) :
    Option (Option String) :=
  match get_rule_ids_by_tag dom "zone_preset_based_on_time_and_presence_with_override" loc with
  | none => some none
  | some rids =>
    match rids.foldl
        (fun acc? rp =>
          match acc? with
          | none => none
          | some acc =>
            if rp.2 = loc then
              match (dom.rules.filter (fun r => r.rid = rp.1)).head? with
              | none => none
              | some rule => some (dinsert rule.name rule.modifiedSecs acc)
            else some acc)
        (some []) with
    | none => none
    | some schemas =>
      if schemas = [] then some none
      else
        some ((schemas.foldl
          (fun best p =>
            match best with
            | none => some p
            | some b => if b.2 ≤ p.2 then some p else some b)
          none).map (fun p => p.1)).join

/-- `Smile.get_object_value` over a prepared (id, point logs) element list:
    a found measurement is parsed and rounded to one decimal. -/
def get_object_value (els : List (String × List PointLog)) (idStr m : String) :
    Option (Option ℚ) :=
  match ((els.filter (fun e => e.1 = idStr)).filterMap (fun e => findLog m e.2)).head? with
  | none => some none
  | some log =>
    match pyFloatParse log.text with
    | none => none
    | some q => some (some (decRound (nearestDouble q) 1))

/-- Appliance elements prepared for `get_object_value`. -/
def appEls (l : List Appliance) : List (String × List PointLog) :=
  l.map (fun a => (a.id, a.pointLogs))

/-- Location elements prepared for `get_object_value`. -/
def locEls (l : List DomLocation) : List (String × List PointLog) :=
  l.map (fun d => (d.id, d.pointLogs))

/-- XPath search for a measurement of a typed log, optionally filtered by a
    tariff attribute. -/
def findDMeas (logs : List DLog) (tag mtype : String)
    (attr : Option (String × String)) : Option Meas :=
  ((logs.filter (fun l => l.tag = tag ∧ l.mtype = mtype)).flatMap
    (fun l => l.measurements.filter
      (fun ms =>
        match attr with
        | none => true
        | some kv => alookup kv.1 ms.attrs = some kv.2))).head?

/-- `log_list` of `get_direct_objects_from_location`. -/
def log_list : List String := ["point_log", "cumulative_log", "interval_log"]

/-- `peak_list` of `get_direct_objects_from_location`. -/
def peak_list : List String := ["nl_peak", "nl_offpeak"]

/-- One (measurement, log type, tariff) case of the
    `get_direct_objects_from_location` loop, including the P1 fallback
    locator and the running net-electricity differential. -/
def dirLocStep (cfg : Config) (logs : List DLog) (tstr : String)
    (acc? : Option (List (String × ℚ))) (mlp : String × String × String) :
    Option (List (String × ℚ)) :=
  match acc? with
  | none => none
  | some dd =>
    let m := mlp.1
    let lt := mlp.2.1
    let peak := mlp.2.2
    let found0 := findDMeas logs lt m (some (tstr, peak))
    let fb := found0.isNone ∧ cfg.stype = "power"
    if fb ∧ peak = "nl_offpeak" then some dd
    else
      let found := if fb then findDMeas logs lt m none else found0
      match found with
      | none => some dd
      | some ms =>
        let peakStr := if peak = "nl_offpeak" then "off_peak" else "peak"
        let logFound := (pySplit '_' lt).headD ""
        let key :=
          if strContains "gas" m then m ++ "_" ++ logFound
          else m ++ "_" ++ peakStr ++ "_" ++ logFound
        let net := "net_electricity_" ++ logFound
        match pyFloatParse ms.text with
        | none => none
        | some v =>
          let dd1 :=
            if strContains "electricity" m then
              let diff : ℚ := if strContains "produced" m then -1 else 1
              dinsert net ((alookup net dd).getD 0 + v * diff) dd
            else dd
          some (dinsert key v dd1)

/-- `Smile.get_direct_objects_from_location` (`some none` is the implicit
    `None` return). -/
def get_direct_objects_from_location (cfg : Config) (snap : Snapshot)
    (loc : Option LocKey) : Option (Option (List (String × ℚ))) :=
  let pair : List DomLocation × String :=
    if cfg.legacy ∧ cfg.stype = "power" then
      (snap.domainObjects.locations, "tariff_indicator")
    else (snap.directObjects.locations, "tariff")
  match ((pair.1.filter (fun l => l.id = locRefStr loc)).filterMap
      (fun l => l.logs)).head? with
  | none => some none
  | some logs =>
    let triples := HOME_MEASUREMENTS.flatMap
      (fun mm => log_list.flatMap (fun lt => peak_list.map (fun pk => (mm.1, lt, pk))))
    match triples.foldl (dirLocStep cfg logs pair.2) (some []) with
    | none => none
    | some dd => if dd = [] then some none else some (some dd)

/-- `thermostat_classes` of `get_device_data`. -/
def thermostat_classes : List String :=
  ["thermostat", "zone_thermostat", "thermostatic_radiator_valve"]

/-- Python truthiness of a stored device-data value. -/
def pyTruthyD (v : DVal) : Bool :=
  match v with
  | .vInt n => n ≠ 0
  | .vFloat q => q ≠ 0
  | .vBool b => b
  | .vStr s => s ≠ ""
  | .vNone => false
  | .vPresets p =>
    match p with
    | none => false
    | some l => l ≠ []
  | .vNames l => l ≠ []

/-- Python `dict.pop(k, None)`. -/
def popKey (k : String) (d : List (String × DVal)) : List (String × DVal) :=
  d.filter (fun p => p.1 ≠ k)

/-- The gateway branch of `get_device_data`: merge P1 power data and the
    outdoor temperature fallback. -/
def gatewayMerge (cfg : Config) (snap : Snapshot) (st : MutState)
    (loc : Option LocKey) (data : List (String × DVal)) :
    Option (List (String × DVal)) :=
  match get_direct_objects_from_location cfg snap loc with
  | none => none
  | some pd =>
    let dataP :=
      match pd with
      | some power => power.foldl (fun d p => dinsert p.1 (.vFloat p.2) d) data
      | none => data
    match get_appliance_data cfg snap st.heaterId with
    | none => none
    | some heater_data =>
      match alookup "outdoor_temperature" heater_data with
      | some v =>
        if pyTruthyD v then some (dinsert "outdoor_temperature" v dataP) else some dataP
      | none =>
        let search :=
          if cfg.legacy ∧ cfg.stype = "power" then locEls snap.domainObjects.locations
          else locEls snap.directObjects.locations
        match get_object_value search (pyStr st.homeLocation) "outdoor_temperature" with
        | none => none
        | some ov =>
          let odv : DVal :=
            match ov with
            | some q => .vFloat q
            | none => .vNone
          if pyTruthyD odv then some (dinsert "outdoor_temperature" odv dataP)
          else some dataP

/-- The thermostat branch of `get_device_data`: preset, presets, schedule
    data and the last used schedule. -/
def thermoBranch (cfg : Config) (snap : Snapshot) (now : Now)
    (loc : Option LocKey) (data : List (String × DVal)) :
    Option (List (String × DVal)) :=
  let ap := get_preset cfg snap.domainObjects loc
  let d3 := dinsert "active_preset"
    (match ap with
     | some s => .vStr s
     | none => .vNone) data
  match get_presets cfg snap.domainObjects loc with
  | none => none
  | some presets =>
    let d4 := dinsert "presets" (.vPresets presets) d3
    match get_schemas cfg snap.domainObjects loc now with
    | none => none
    | some r =>
      let d5 :=
        if cfg.legacy then d4
        else dinsert "schedule_temperature"
          (match r.2.2 with
           | some q => .vFloat q
           | none => .vNone) d4
      let d6 := dinsert "available_schedules" (.vNames r.1) d5
      let d7 := dinsert "selected_schedule"
        (match r.2.1 with
         | some s => .vStr s
         | none => .vNone) d6
      if cfg.legacy then
        some (dinsert "last_used"
          (.vStr (String.join (r.1.map (fun o =>
            match o with
            | some s => s
            | none => "None")))) d7)
      else
        match get_last_active_schema snap.domainObjects loc with
        | none => none
        | some lu =>
          some (dinsert "last_used"
            (match lu with
             | some s => .vStr s
             | none => .vNone) d7)

/-- The record-building part of `get_device_data`, as a function of the
    result pair of its `get_all_devices` call (whose state component carries
    every mutable field the rest of the method reads; `none` models any
    raise on the way). -/
def gddOut (cfg : Config) (snap : Snapshot) (now : Now) (devId : AppKey)
    (r : Option (List (AppKey × AppData)) × MutState) :
    Option (List (String × DVal)) :=
  match r.1 with
  | none => none
  | some devices =>
    match alookup devId devices with
    | none => none
    | some details =>
      match get_appliance_data cfg snap devId with
      | none => none
      | some data0 =>
        let fix1? : Option (List (String × DVal)) :=
          if (alookup "boiler_state" data0).isSome then
            match alookup "intended_boiler_state" data0 with
            | none => none
            | some v =>
              some (popKey "intended_boiler_state"
                (popKey "boiler_state" (dinsert "heating_state" v data0)))
          else some data0
        match fix1? with
        | none => none
        | some data1 =>
          let data2 :=
            if (alookup "setpoint" data1).isSome then popKey "heating_state" data1
            else data1
          let tb? :=
            if details.cls ∈ thermostat_classes then
              thermoBranch cfg snap now details.location data2
            else some data2
          match tb? with
          | none => none
          | some dataT =>
            let ill? :=
              if details.cls ∈ ["thermostat"] then
                let search :=
                  if cfg.legacy ∧ cfg.stype = "power" then
                    appEls snap.domainObjects.appliances
                  else appEls snap.directObjects.appliances
                match get_object_value search (pyStr devId) "illuminance" with
                | none => none
                | some ov =>
                  some (dinsert "illuminance"
                    (match ov with
                     | some q => .vFloat q
                     | none => .vNone) dataT)
              else some dataT
            match ill? with
            | none => none
            | some dataI =>
              if details.cls = "gateway" ∨ devId = r.2.gatewayId then
                gatewayMerge cfg snap r.2 details.location dataI
              else some dataI

/-- `Smile.get_device_data`: the per-device record of the resolution
    pipeline (the mutable state returned is the one produced by the
    `get_all_devices` call, whose writes all precede the possible raise
    points). -/
def get_device_data (cfg : Config) (snap : Snapshot) (now : Now)
    (devId : AppKey) (st : MutState) :
    Option (List (String × DVal)) × MutState :=
  let r := get_all_devices cfg snap st
  (gddOut cfg snap now devId r, r.2)

/-- The three mutable identifier fields that the record-building code can
    read back (`_thermo_master_id` is written by the scan but never read by
    the pipeline). -/
def coreOf (s : MutState) : Option String × Option String × Option String :=
  (s.gatewayId, s.heaterId, s.homeLocation)

/-- One device queried during a poll cycle: its record is appended and the
    mutable state is threaded on. -/
def cycleStep (cfg : Config) (snap : Snapshot) (now : Now)
    (acc : List (Option (List (String × DVal))) × MutState) (dev : AppKey) :
    List (Option (List (String × DVal))) × MutState :=
  (acc.1 ++ [(get_device_data cfg snap now dev acc.2).1],
    (get_device_data cfg snap now dev acc.2).2)

/-- A full poll cycle: `get_device_data` for every device id in turn,
    starting from the mutable state left by the previous cycle. -/
def runCycle (cfg : Config) (snap : Snapshot) (now : Now)
    (devs : List AppKey) (st : MutState) :
    List (Option (List (String × DVal))) × MutState :=
  devs.foldl (cycleStep cfg snap now) ([], st)

/-- The four cached documents of the `Smile` object. -/
structure DocsState where
  appliances : Option (List Appliance)
  direct : Option DirectObjects
  domain : Option DomainObjects
  locations : Option (List LocationEl)
  deriving DecidableEq

/-- `Smile.update_appliances`: skipped entirely for legacy power, otherwise
    a successful fetch replaces the cached document. -/
def update_appliances (cfg : Config) (st : DocsState)
    (fetched : Option (List Appliance)) : DocsState :=
  if cfg.legacy ∧ cfg.stype = "power" then st
  else
    match fetched with
    | some d => { st with appliances := some d }
    | none => st

/-- `Smile.update_direct_objects`. -/
def update_direct_objects (cfg : Config) (st : DocsState)
    (fetched : Option DirectObjects) : DocsState :=
  if cfg.legacy ∧ cfg.stype = "power" then st
  else
    match fetched with
    | some d => { st with direct := some d }
    | none => st

/-- `Smile.update_domain_objects`. -/
def update_domain_objects (st : DocsState) (fetched : Option DomainObjects) :
    DocsState :=
  match fetched with
  | some d => { st with domain := some d }
  | none => st

/-- `Smile.update_locations`. -/
def update_locations (st : DocsState) (fetched : Option (List LocationEl)) :
    DocsState :=
  match fetched with
  | some d => { st with locations := some d }
  | none => st

/-- `Smile.full_update_device` over the four fetch results; `none` models the
    `XMLDataMissingError` raise that aborts the poll cycle. -/
def full_update_device (cfg : Config) (st : DocsState)
    (fa : Option (List Appliance)) (fd : Option DirectObjects)
    (fdo : Option DomainObjects) (fl : Option (List LocationEl)) :
    Option DocsState :=
  let st1 := update_appliances cfg st fa
  if st1.appliances.isNone ∧ (cfg.stype = "power" ∧ cfg.legacy = false) then none
  else
    let st2 := update_direct_objects cfg st1 fd
    if st2.direct.isNone ∧ (cfg.stype = "power" ∧ cfg.legacy = false) then none
    else
      let st3 := update_domain_objects st2 fdo
      if st3.domain.isNone then none
      else
        let st4 := update_locations st3 fl
        if st4.locations.isNone then none
        else some st4

/-- A `Smile` object whose document caches and mutable fields are all unset
    (the state right after construction). -/
def emptyDocs : DocsState := ⟨none, none, none, none⟩

/-- The candidate list a zone's election effectively processes: appliance
    entries matching the zone whose class has a thermostat priority, in scan
    order. -/
def thermoCandidates (legacy : Bool) (apps : List (AppKey × AppData)) (loc : LocKey) :
    List (AppKey × ℕ) :=
  apps.filterMap (fun ap =>
    match thermoPrio ap.2.cls with
    | some p => if appMatchesZone legacy loc ap.2 then some (ap.1, p) else none
    | none => none)

/-- Maximum priority among a zone's candidates (0 when there are none). -/
def maxPrio (cands : List (AppKey × ℕ)) : ℕ :=
  cands.foldr (fun c m => max c.2 m) 0

/-- Does `get_all_devices` rewrite this appliance's class to
    `thermo_sensor`: its (explicit) location is a scanned zone in whose
    slaves set the appliance sits? -/
def slaveOverride (thermoLocs : List (LocKey × LocData)) (k : AppKey)
    (loc : Option LocKey) : Bool :=
  ((loc.bind (fun lk => alookup lk thermoLocs)).bind (fun e => e.thermo)).elim
    false (fun t => decide (k ∈ t.slaves))

/-- Fallback values used to project concrete pipeline results in witnesses. -/
def defLocData : LocData := ⟨"", ∅, ∅, none⟩

/-- Fallback appliance entry. -/
def defAppData : AppData := ⟨"", ∅, "", none⟩

/-- Fallback thermostat data. -/
def defThermo : ThermoData := ⟨none, 0, ∅⟩

/-- A small appliance element for the concrete scenarios. -/
def exApp (i c : String) (l : Option String) (tf : Bool) : Appliance :=
  ⟨i, c, i ++ "-name", l, [], [], [], false, tf⟩

/-- Concrete non-legacy snapshot: a gateway, a central heater, and a zone
    holding one zone thermostat plus one radiator valve, with an
    `open_therm_gateway` appliance to be discarded. -/
def exSnap : Snapshot :=
  ⟨[exApp "gw1" "gateway" none false,
    exApp "ht1" "heater_central" none false,
    exApp "zt1" "zone_thermostat" (some "z1") true,
    exApp "rv1" "thermostatic_radiator_valve" (some "z1") true,
    exApp "otg1" "open_therm_gateway" none false],
   [⟨"h1", "Home", [], false, []⟩,
    ⟨"z1", "Living", ["zt1", "rv1"], false, []⟩],
   ⟨[], []⟩, ⟨[], [], []⟩⟩

/-- Non-legacy thermostat configuration. -/
def exCfg : Config := ⟨false, "thermostat", "Adam"⟩

/-- The freshly constructed mutable state. -/
def exSt : MutState := ⟨none, none, none, none⟩

/-- The appliance dictionary of the concrete scenario. -/
def exApps : List (AppKey × AppData) :=
  ((get_all_appliances exCfg exSnap exSt).1).getD []

/-- The thermostat scan result of the concrete scenario. -/
def exScanOut : List (LocKey × LocData) × Option LocKey :=
  ((scan_thermostats exCfg exSnap exSt).1).getD ([], none)

/-- The scanned zone entry of the concrete scenario. -/
def exZoneData : LocData := (alookup (.lid "z1") exScanOut.1).getD defLocData

/-- The elected master/slave data of the concrete zone. -/
def exZoneThermo : ThermoData := exZoneData.thermo.getD defThermo

/-- The device dictionary of the concrete scenario. -/
def exDevs : List (AppKey × AppData) :=
  ((get_all_devices exCfg exSnap exSt).1).getD []

/-- Legacy Anna configuration. -/
def exCfgLegacy : Config := ⟨true, "thermostat", "Anna"⟩

/-- Concrete legacy snapshot with three appliances and zero locations. -/
def exLegacySnap : Snapshot :=
  ⟨[exApp "a1" "thermostat" none true,
    exApp "a2" "heater_central" none false,
    exApp "a3" "gateway" none false],
   [], ⟨[], []⟩, ⟨[], [], []⟩⟩

/-- A concrete schedule rule with the interval `[mo 06:00, mo 22:00)` mapped
    to `21.0`. -/
def exSchedRule : Rule :=
  ⟨"r1", some "Weekschedule", some "true",
   some "zone_preset_based_on_time_and_presence_with_override",
   ["l1"], some [⟨some "[mo 06:00,mo 22:00)", none, [("setpoint", "21.0")]⟩],
   none, 0⟩

/-- Domain objects holding only the concrete schedule rule. -/
def exSchedDom : DomainObjects := ⟨[exSchedRule], [], []⟩

/-- A central-heater appliance whose only point log is a water-pressure
    reading with the given text. -/
def exPressureApp (v : String) : Appliance :=
  ⟨"ht1", "heater_central", "heater", some "h1",
   [⟨"central_heater_water_pressure", v, none⟩], [], [], false, false⟩

/-- Snapshot holding only the water-pressure appliance. -/
def exPressureSnap (v : String) : Snapshot :=
  ⟨[exPressureApp v], [], ⟨[], []⟩, ⟨[], [], []⟩⟩

lemma alookup_append {α β : Type} [DecidableEq α] (k : α) (d e : List (α × β)) :
    alookup k (d ++ e) =
      match alookup k d with
      | some v => some v
      | none => alookup k e := by
  induction d with
  | nil => rfl
  | cons p t ih =>
    simp only [List.cons_append, alookup]
    by_cases hp : p.1 = k
    · simp [hp]
    · simp [hp, ih]

lemma alookup_map_replace {α β : Type} [DecidableEq α] (k k' : α) (v : β)
    (d : List (α × β)) (h : k ≠ k') :
    alookup k (d.map (fun p => if p.1 = k' then (k', v) else p)) = alookup k d := by
  induction d with
  | nil => rfl
  | cons p t ih =>
    simp only [List.map_cons, alookup]
    by_cases hp : p.1 = k'
    · rw [if_pos hp]
      simp only [alookup]
      rw [if_neg (Ne.symm h), if_neg (by rw [hp]; exact Ne.symm h)]
      exact ih
    · rw [if_neg hp]
      by_cases hk : p.1 = k
      · rw [if_pos hk, if_pos hk]
      · rw [if_neg hk, if_neg hk]; exact ih

lemma alookup_dinsert_ne {α β : Type} [DecidableEq α] (k k' : α) (v : β)
    (d : List (α × β)) (h : k ≠ k') :
    alookup k (dinsert k' v d) = alookup k d := by
  unfold dinsert
  split
  · exact alookup_map_replace k k' v d h
  · rw [alookup_append]
    cases hd : alookup k d with
    | some w => rfl
    | none =>
      simp only [alookup]
      rw [if_neg (Ne.symm h)]

lemma alookup_dinsert_self {α β : Type} [DecidableEq α] (k : α) (v : β)
    (d : List (α × β)) :
    alookup k (dinsert k v d) = some v := by
  unfold dinsert
  split
  · rename_i hs
    induction d with
    | nil => simp [alookup] at hs
    | cons p t ih =>
      simp only [List.map_cons]
      by_cases hp : p.1 = k
      · rw [if_pos hp]
        simp [alookup]
      · rw [if_neg hp]
        simp only [alookup] at hs ⊢
        rw [if_neg hp] at hs ⊢
        exact ih hs
  · rw [alookup_append]
    rename_i hs
    cases hd : alookup k d with
    | some w => rw [hd] at hs; simp at hs
    | none => simp [alookup]

lemma mem_dinsert {α β : Type} [DecidableEq α] {k : α} {v : β}
    {d : List (α × β)} {p : α × β} (h : p ∈ dinsert k v d) :
    p = (k, v) ∨ p ∈ d := by
  unfold dinsert at h
  split at h
  · rcases List.mem_map.mp h with ⟨q, hq, hqe⟩
    by_cases hk : q.1 = k
    · left; rw [if_pos hk] at hqe; exact hqe.symm
    · right; rw [if_neg hk] at hqe; exact hqe ▸ hq
  · rcases List.mem_append.mp h with h1 | h1
    · right; exact h1
    · left; simpa using h1

lemma alookup_isNone_iff {α β : Type} [DecidableEq α] (k : α) (d : List (α × β)) :
    alookup k d = none ↔ k ∉ d.map Prod.fst := by
  induction d with
  | nil => simp [alookup]
  | cons p t ih =>
    simp only [alookup, List.map_cons, List.mem_cons]
    by_cases hp : p.1 = k
    · simp [hp]
    · simp [hp, ih, Ne.symm hp]

lemma dinsert_keys_nodup {α β : Type} [DecidableEq α] (k : α) (v : β)
    (d : List (α × β)) (h : (d.map Prod.fst).Nodup) :
    ((dinsert k v d).map Prod.fst).Nodup := by
  unfold dinsert
  split
  · have : (d.map (fun p => if p.1 = k then (k, v) else p)).map Prod.fst = d.map Prod.fst := by
      rw [List.map_map]
      apply List.map_congr_left
      intro p _
      by_cases hp : p.1 = k
      · simp [hp]
      · simp [hp]
    rw [this]; exact h
  · rename_i hs
    rw [List.map_append]
    simp only [List.map_cons, List.map_nil]
    refine List.Nodup.append h (List.nodup_singleton _) ?_
    intro a ha hb
    simp only [List.mem_singleton] at hb
    subst hb
    exact (alookup_isNone_iff _ d).mp (Option.not_isSome_iff_eq_none.mp hs) ha

lemma abs_nhalfEven_sub (m : ℚ) : |(nhalfEven m : ℚ) - m| ≤ 1 / 2 := by
  unfold nhalfEven
  have h1 : ((⌊m⌋ : ℤ) : ℚ) ≤ m := Int.floor_le m
  have h2 : m < (⌊m⌋ : ℚ) + 1 := Int.lt_floor_add_one m
  split_ifs with ha hb hc
  · rw [abs_le]; push_cast; constructor <;> linarith
  · rw [abs_le]; push_cast; constructor <;> linarith
  · rw [abs_le]; push_cast; constructor <;> linarith
  · rw [abs_le]; push_cast; constructor <;> linarith

lemma abs_decRound_sub (x : ℚ) (n : ℕ) :
    |decRound x n - x| ≤ 1 / (2 * 10 ^ n) := by
  unfold decRound
  have h10 : (0 : ℚ) < 10 ^ n := by positivity
  have h := abs_nhalfEven_sub (x * 10 ^ n)
  have heq : (nhalfEven (x * 10 ^ n) : ℚ) / 10 ^ n - x =
      ((nhalfEven (x * 10 ^ n) : ℚ) - x * 10 ^ n) / 10 ^ n := by
    field_simp
    ring
  rw [heq, abs_div, abs_of_pos h10, div_le_div_iff h10 (by positivity)]
  calc |(nhalfEven (x * 10 ^ n) : ℚ) - x * 10 ^ n| * (2 * 10 ^ n)
      ≤ (1 / 2) * (2 * 10 ^ n) := by
        apply mul_le_mul_of_nonneg_right h (by positivity)
    _ = 1 * 10 ^ n := by ring

lemma decRound_den (x : ℚ) (n : ℕ) : (decRound x n * (10 : ℚ) ^ n).den = 1 := by
  unfold decRound
  rw [div_mul_cancel₀]
  · exact Rat.den_intCast _
  · positivity

attribute [local semireducible] Rat.add Rat.sub Rat.mul Rat.inv Rat.ofScientific

set_option maxRecDepth 1000000

lemma mem_foldl_insert_id (l : List Appliance) : ∀ (S : Finset String) (x : String),
    x ∈ l.foldl (fun s a => insert a.id s) S ↔ x ∈ S ∨ ∃ a ∈ l, a.id = x := by
  induction l with
  | nil => simp
  | cons a t ih =>
    intro S x
    simp only [List.foldl_cons, ih, Finset.mem_insert, List.mem_cons]
    constructor
    · rintro (h | h)
      · rcases h with h | h
        · exact Or.inr ⟨a, Or.inl rfl, h.symm⟩
        · exact Or.inl h
      · rcases h with ⟨b, hb, he⟩
        exact Or.inr ⟨b, Or.inr hb, he⟩
    · rintro (h | ⟨b, hb | hb, he⟩)
      · exact Or.inl (Or.inr h)
      · subst hb; exact Or.inl (Or.inl he.symm)
      · exact Or.inr ⟨b, hb, he⟩

/-- C3 counterexample: on `"-12.34"` the parsed value has magnitude at least
    10, so the claim demands rounding to one decimal place, but the code
    compares the signed value against 10 and keeps two decimals: the result
    `-12.34` is not a one-decimal value. -/
theorem format_measure_magnitude_cex :
    pyIntParse "-12.34" = none ∧
    pyFloatParse "-12.34" = some (-617 / 50) ∧
    nearestDouble (-617 / 50 : ℚ) ≤ -10 ∧
    _format_measure "-12.34" = .vFloat (-617 / 50) ∧
    ((-617 / 50 : ℚ) * 10).den ≠ 1 := by
  refine ⟨by decide, by decide, by decide, by decide, by decide⟩

/-- C3 (amended): `_format_measure` returns the integer value of an
    int-parsable string; otherwise, for a float-parsable string, a float on
    the 2-decimal grid within half a step when the parsed value is below 10
    (signed comparison, not magnitude) and on the 1-decimal grid otherwise;
    otherwise `"on"`/`"off"` become booleans and anything else is returned
    as text; with the concrete examples `"2"`, `"2.345"`, `"12.34"`,
    `"on"`, `"off"` evaluating as the specification lists. -/
theorem format_measure_contract :
    (∀ s n, pyIntParse s = some n → _format_measure s = .vInt n) ∧
    (∀ s q, pyIntParse s = none → pyFloatParse s = some q →
      ∃ r : ℚ, _format_measure s = .vFloat r ∧
        ((nearestDouble q < 10 → (r * 100).den = 1 ∧ |r - nearestDouble q| ≤ 1 / 200) ∧
         (10 ≤ nearestDouble q → (r * 10).den = 1 ∧ |r - nearestDouble q| ≤ 1 / 20))) ∧
    (∀ s, pyIntParse s = none → pyFloatParse s = none → s ≠ "on" → s ≠ "off" →
      _format_measure s = .vStr s) ∧
    _format_measure "on" = .vBool true ∧
    _format_measure "off" = .vBool false ∧
    _format_measure "2" = .vInt 2 ∧
    _format_measure "2.345" = .vFloat (47 / 20) ∧
    _format_measure "12.34" = .vFloat (123 / 10) := by
  refine ⟨?_, ?_, ?_, by decide, by decide, by decide, by decide, by decide⟩
  · intro s n h
    unfold _format_measure
    rw [h]
  · intro s q hi hf
    simp only [_format_measure, hi, hf]
    by_cases h10 : nearestDouble q < 10
    · rw [if_pos h10]
      refine ⟨pyRoundFmt q 2, rfl, fun _ => ⟨?_, ?_⟩, fun hge => absurd h10 (not_lt.mpr hge)⟩
      · have h100 : (100 : ℚ) = 10 ^ 2 := by norm_num
        rw [pyRoundFmt, h100]
        exact decRound_den _ 2
      · have := abs_decRound_sub (nearestDouble q) 2
        rw [pyRoundFmt]
        convert this using 2
    · rw [if_neg h10]
      refine ⟨pyRoundFmt q 1, rfl, fun hlt => absurd hlt h10, fun _ => ⟨?_, ?_⟩⟩
      · have h10' : (10 : ℚ) = 10 ^ 1 := by norm_num
        rw [pyRoundFmt, h10']
        exact decRound_den _ 1
      · have := abs_decRound_sub (nearestDouble q) 1
        rw [pyRoundFmt]
        convert this using 2
  · intro s hi hf hon hoff
    unfold _format_measure
    rw [hi, hf, if_neg hon, if_neg hoff]

/-- C3 witness: the contract applied at concrete inputs. -/
theorem format_measure_contract_witness :
    _format_measure "7" = .vInt 7 ∧
    _format_measure "auto" = .vStr "auto" ∧
    (∃ r : ℚ, _format_measure "0.25" = .vFloat r ∧
      ((nearestDouble (1 / 4 : ℚ) < 10 →
          (r * 100).den = 1 ∧ |r - nearestDouble (1 / 4 : ℚ)| ≤ 1 / 200) ∧
       (10 ≤ nearestDouble (1 / 4 : ℚ) →
          (r * 10).den = 1 ∧ |r - nearestDouble (1 / 4 : ℚ)| ≤ 1 / 20))) :=
  ⟨format_measure_contract.1 "7" 7 (by decide),
   format_measure_contract.2.2.1 "auto" (by decide) (by decide) (by decide) (by decide),
   format_measure_contract.2.1 "0.25" (1 / 4) (by decide) (by decide)⟩

/-- C5: `in_between` is exactly the half-open interval test with
    wrap-around, and on the concrete schedule `[mo 06:00, mo 22:00) → 21.0`
    the resolved setpoint is 21 at monday 10:00 and absent at monday 23:00
    (whose time would instead satisfy the wrap-around interval
    `[mo 22:00, mo 06:00)`). -/
theorem in_between_spec :
    (∀ now start stop : ℚ, start ≤ stop →
      (in_between now start stop = true ↔ start ≤ now ∧ now < stop)) ∧
    (∀ now start stop : ℚ, stop < start →
      (in_between now start stop = true ↔ start ≤ now ∨ now < stop)) ∧
    get_schemas ⟨false, "thermostat", "Anna"⟩ exSchedDom (some (.lid "l1")) ⟨0, 600⟩ =
      some ([some "Weekschedule"], some "Weekschedule", some 21) ∧
    get_schemas ⟨false, "thermostat", "Anna"⟩ exSchedDom (some (.lid "l1")) ⟨0, 1380⟩ =
      some ([some "Weekschedule"], some "Weekschedule", none) ∧
    in_between 1380 1320 360 = true := by
  refine ⟨?_, ?_, by decide, by decide, by decide⟩
  · intro now start stop h
    unfold in_between
    rw [if_pos h]
    simp
  · intro now start stop h
    unfold in_between
    rw [if_neg (not_le.mpr h)]
    simp

/-- C5 witness: the interval test applied at monday 10:00 against
    `[06:00, 22:00)` and at monday 23:00 against the wrap-around interval
    `[22:00, 06:00)`. -/
theorem in_between_spec_witness :
    (in_between 600 360 1320 = true ↔ (360 : ℚ) ≤ 600 ∧ (600 : ℚ) < 1320) ∧
    (in_between 1380 1320 360 = true ↔ (1320 : ℚ) ≤ 1380 ∨ (1380 : ℚ) < 360) :=
  ⟨in_between_spec.1 600 360 1320 (by norm_num),
   in_between_spec.2.1 1380 1320 360 (by norm_num)⟩

/-- C2 counterexample: with a fresh cache, a missing appliances document on
    a non-legacy thermostat dialect does not abort the poll (the claim says
    it must), while on a non-legacy power dialect it does (the claim says it
    must not). -/
theorem full_update_missing_appliances_cex :
    full_update_device ⟨false, "thermostat", "Anna"⟩ emptyDocs none (some ⟨[], []⟩)
      (some ⟨[], [], []⟩) (some []) ≠ none ∧
    full_update_device ⟨false, "power", "P1"⟩ emptyDocs none (some ⟨[], []⟩)
      (some ⟨[], [], []⟩) (some []) = none := by
  refine ⟨by decide, by decide⟩

/-- C2 (amended): starting from an empty cache, `full_update_device` raises
    the missing-XML-data error exactly when the appliances or direct-objects
    fetch is missing on a non-legacy POWER dialect, or the domain-objects or
    locations fetch is missing on any dialect. -/
theorem full_update_device_fatal_iff (cfg : Config)
    (fa : Option (List Appliance)) (fd : Option DirectObjects)
    (fdo : Option DomainObjects) (fl : Option (List LocationEl)) :
    full_update_device cfg emptyDocs fa fd fdo fl = none ↔
      ((cfg.stype = "power" ∧ cfg.legacy = false ∧ (fa = none ∨ fd = none)) ∨
        fdo = none ∨ fl = none) := by
  obtain ⟨leg, sty, nm⟩ := cfg
  by_cases hs : sty = "power" <;> cases leg <;> cases fa <;> cases fd <;>
      cases fdo <;> cases fl <;>
    simp [full_update_device, update_appliances, update_direct_objects,
      update_domain_objects, update_locations, emptyDocs, hs]

/-- C6: on a legacy dialect with zero location entries, `get_all_locations`
    returns exactly one synthesized location with sentinel key 0, name
    `Legacy`, types `{"temperature"}`, membership equal to the set of all
    appliance ids, and that location is the home location. -/
theorem legacy_zero_locations_home (cfg : Config) (snap : Snapshot)
    (hleg : cfg.legacy = true) (hloc : snap.locationsDoc = []) :
    ((get_all_locations cfg snap).1.map Prod.fst = [LocKey.zero]) ∧
    (get_all_locations cfg snap).2.1 = some LocKey.zero ∧
    ((get_all_locations cfg snap).1.head?.map
        (fun p => (p.2.name, p.2.types, p.2.thermo)) =
      some ("Legacy", ({"temperature"} : Finset String), none)) ∧
    (∀ x : String, (∃ p ∈ (get_all_locations cfg snap).1, x ∈ p.2.members) ↔
      ∃ a ∈ snap.appliancesDoc, a.id = x) := by
  unfold get_all_locations
  rw [hloc, hleg]
  rw [if_pos (by simp)]
  refine ⟨rfl, rfl, rfl, ?_⟩
  intro x
  constructor
  · rintro ⟨p, hp, hx⟩
    simp only [List.mem_singleton] at hp
    subst hp
    have := (mem_foldl_insert_id snap.appliancesDoc ∅ x).mp hx
    simpa using this
  · rintro ⟨a, ha, he⟩
    refine ⟨_, List.mem_singleton_self _, ?_⟩
    exact (mem_foldl_insert_id snap.appliancesDoc ∅ x).mpr (Or.inr ⟨a, ha, he⟩)

/-- C6 witness: the theorem applied to the concrete legacy snapshot with
    three appliances. -/
theorem legacy_zero_locations_home_witness :
    (get_all_locations exCfgLegacy exLegacySnap).1.map Prod.fst = [LocKey.zero] ∧
    ((∃ p ∈ (get_all_locations exCfgLegacy exLegacySnap).1, "a2" ∈ p.2.members) ↔
      ∃ a ∈ exLegacySnap.appliancesDoc, a.id = "a2") :=
  ⟨(legacy_zero_locations_home exCfgLegacy exLegacySnap rfl rfl).1,
   (legacy_zero_locations_home exCfgLegacy exLegacySnap rfl rfl).2.2.2 "a2"⟩

lemma foldl_option_none {α β : Type} (g : Option α → β → Option α)
    (hg : ∀ x, g none x = none) (l : List β) : l.foldl g none = none := by
  induction l with
  | nil => rfl
  | cons x xs ih => simp only [List.foldl_cons, hg]; exact ih

lemma foldl_option_preserve {α β : Type} (g : Option α → β → Option α) (Q : α → Prop)
    (hnone : ∀ x, g none x = none)
    (hstep : ∀ a x r, g (some a) x = some r → Q a → Q r) :
    ∀ (l : List β) (a : α), Q a → ∀ r, l.foldl g (some a) = some r → Q r := by
  intro l
  induction l with
  | nil =>
    intro a ha r h
    simp only [List.foldl_nil, Option.some.injEq] at h
    exact h ▸ ha
  | cons x xs ih =>
    intro a ha r h
    simp only [List.foldl_cons] at h
    cases hg : g (some a) x with
    | none => rw [hg, foldl_option_none g hnone] at h; cases h
    | some b => rw [hg] at h; exact ih b (hstep a x b hg ha) r h

lemma locThermo_eq_elect (legacy : Bool) (apps : List (AppKey × AppData)) (loc : LocKey) :
    locThermo legacy apps loc =
      (thermoCandidates legacy apps loc).foldl (fun t c => electStep t c.1 c.2)
        ⟨none, 0, ∅⟩ := by
  suffices h : ∀ (l : List (AppKey × AppData)) (t0 : ThermoData),
      l.foldl
        (fun t ap =>
          match thermoPrio ap.2.cls with
          | some p => if appMatchesZone legacy loc ap.2 then electStep t ap.1 p else t
          | none => t) t0 =
      (thermoCandidates legacy apps loc |> fun _ => thermoCandidates legacy l loc).foldl
        (fun t c => electStep t c.1 c.2) t0 by
    exact h apps ⟨none, 0, ∅⟩
  intro l
  induction l with
  | nil => intro t0; rfl
  | cons ap rest ih =>
    intro t0
    simp only [List.foldl_cons, thermoCandidates, List.filterMap_cons]
    cases hp : thermoPrio ap.2.cls with
    | none => simp only [hp]; exact ih t0
    | some p =>
      simp only [hp]
      by_cases hm : appMatchesZone legacy loc ap.2
      · simp only [if_pos hm, List.foldl_cons]
        exact ih (electStep t0 ap.1 p)
      · simp only [if_neg hm]
        exact ih t0

lemma elect_foldl_spec (cands : List (AppKey × ℕ)) :
    ∀ t : ThermoData,
      ((cands.foldl (fun t c => electStep t c.1 c.2) t).masterPrio
          = max t.masterPrio (maxPrio cands)) ∧
      ((cands.foldl (fun t c => electStep t c.1 c.2) t).master =
        if t.masterPrio < maxPrio cands then
          ((cands.find? (fun c => decide (c.2 = maxPrio cands))).map Prod.fst)
        else t.master) := by
  induction cands with
  | nil =>
    intro t
    simp [maxPrio]
  | cons c rest ih =>
    intro t
    have hmax : maxPrio (c :: rest) = max c.2 (maxPrio rest) := rfl
    simp only [List.foldl_cons]
    obtain ⟨ihp, ihm⟩ := ih (electStep t c.1 c.2)
    by_cases hc : t.masterPrio < c.2
    · have hstp : (electStep t c.1 c.2).masterPrio = c.2 := by
        unfold electStep; rw [if_pos hc]
      have hstm : (electStep t c.1 c.2).master = some c.1 := by
        unfold electStep; rw [if_pos hc]
      refine ⟨?_, ?_⟩
      · rw [ihp, hstp, hmax, ← max_assoc, max_eq_right (le_of_lt hc)]
      · rw [ihm, hstm, hstp, hmax]
        have ht : t.masterPrio < max c.2 (maxPrio rest) :=
          lt_of_lt_of_le hc (le_max_left _ _)
        rw [if_pos ht]
        by_cases hcr : c.2 < maxPrio rest
        · rw [if_pos hcr, max_eq_right (le_of_lt hcr)]
          rw [List.find?_cons_of_neg]
          simp [Nat.ne_of_lt hcr]
        · rw [if_neg hcr, max_eq_left (le_of_not_lt hcr)]
          rw [List.find?_cons_of_pos]
          · rfl
          · simp
    · have hstp : (electStep t c.1 c.2).masterPrio = t.masterPrio := by
        unfold electStep; rw [if_neg hc]
      have hstm : (electStep t c.1 c.2).master = t.master := by
        unfold electStep; rw [if_neg hc]
      have hcle : c.2 ≤ t.masterPrio := le_of_not_lt hc
      refine ⟨?_, ?_⟩
      · rw [ihp, hstp, hmax, ← max_assoc, max_eq_left hcle]
      · rw [ihm, hstm, hstp, hmax]
        by_cases htr : t.masterPrio < maxPrio rest
        · have h1 : t.masterPrio < max c.2 (maxPrio rest) :=
            lt_of_lt_of_le htr (le_max_right _ _)
          rw [if_pos htr, if_pos h1]
          have hmx : max c.2 (maxPrio rest) = maxPrio rest :=
            max_eq_right (le_trans hcle (le_of_lt htr))
          rw [hmx, List.find?_cons_of_neg]
          have : c.2 ≠ maxPrio rest := Nat.ne_of_lt (lt_of_le_of_lt hcle htr)
          simp [this]
        · rw [if_neg htr]
          have h1 : ¬t.masterPrio < max c.2 (maxPrio rest) := by
            rw [not_lt, max_le_iff]
            exact ⟨hcle, le_of_not_lt htr⟩
          rw [if_neg h1]

lemma mem_thermoCandidates {legacy : Bool} {apps : List (AppKey × AppData)}
    {loc : LocKey} {c : AppKey × ℕ} (h : c ∈ thermoCandidates legacy apps loc) :
    ∃ ap ∈ apps, thermoPrio ap.2.cls = some c.2 ∧ ap.1 = c.1 ∧
      appMatchesZone legacy loc ap.2 := by
  rcases List.mem_filterMap.mp h with ⟨ap, hap, he⟩
  cases hp : thermoPrio ap.2.cls with
  | none => simp only [hp] at he; cases he
  | some p =>
    simp only [hp] at he
    by_cases hm : appMatchesZone legacy loc ap.2
    · rw [if_pos hm] at he
      injection he with he
      subst he
      exact ⟨ap, hap, hp, rfl, hm⟩
    · rw [if_neg hm] at he; cases he

lemma thermoPrio_pos {cls : String} {p : ℕ} (h : thermoPrio cls = some p) : 0 < p := by
  simp only [thermoPrio, thermoMatching, alookup] at h
  split_ifs at h <;> first
    | (injection h with h; omega)
    | cases h

lemma le_maxPrio {cands : List (AppKey × ℕ)} {c : AppKey × ℕ} (h : c ∈ cands) :
    c.2 ≤ maxPrio cands := by
  induction cands with
  | nil => cases h
  | cons d rest ih =>
    rcases List.mem_cons.mp h with h | h
    · subst h; exact le_max_left _ _
    · exact le_trans (ih h) (le_max_right _ _)

lemma scan_core_fst (legacy : Bool) (locations : List (LocKey × LocData))
    (home : Option LocKey) (apps : List (AppKey × AppData)) :
    (scan_core legacy locations home apps).1 =
      locations.map (fun le =>
        (le.1,
          if ("thermostat" ∈ le.2.types ∧ some le.1 ≠ home) ∨
              (some le.1 = home ∧ legacy = true) then
            { le.2 with thermo := some (locThermo legacy apps le.1) }
          else le.2)) := by
  unfold scan_core
  suffices h : ∀ (ls : List (LocKey × LocData))
      (acc : List (LocKey × LocData) × ℕ × Option AppKey),
      (ls.foldl
        (fun acc le =>
          if ("thermostat" ∈ le.2.types ∧ some le.1 ≠ home) ∨
              (some le.1 = home ∧ legacy = true) then
            (acc.1 ++ [(le.1, { le.2 with thermo := some (locThermo legacy apps le.1) })],
              trackHigh apps acc.2)
          else (acc.1 ++ [(le.1, le.2)], acc.2)) acc).1 =
      acc.1 ++ ls.map (fun le =>
        (le.1,
          if ("thermostat" ∈ le.2.types ∧ some le.1 ≠ home) ∨
              (some le.1 = home ∧ legacy = true) then
            { le.2 with thermo := some (locThermo legacy apps le.1) }
          else le.2)) by
    simpa using h locations ([], 0, none)
  intro ls
  induction ls with
  | nil => intro acc; simp
  | cons le rest ih =>
    intro acc
    simp only [List.foldl_cons, List.map_cons]
    by_cases hq : ("thermostat" ∈ le.2.types ∧ some le.1 ≠ home) ∨
        (some le.1 = home ∧ legacy = true)
    · rw [if_pos hq, if_pos hq, ih]
      simp
    · rw [if_neg hq, if_neg hq, ih]
      simp

lemma get_all_locations_thermo_none (cfg : Config) (snap : Snapshot) :
    ∀ p ∈ (get_all_locations cfg snap).1, p.2.thermo = none := by
  unfold get_all_locations
  split
  · intro p hp
    simp only [List.mem_singleton] at hp
    subst hp
    rfl
  · suffices h : ∀ (ls : List LocationEl) (acc : List (LocKey × LocData) × Option LocKey),
        (∀ p ∈ acc.1, p.2.thermo = none) →
        ∀ p ∈ (ls.foldl
          (fun (acc : List (LocKey × LocData) × Option LocKey) location =>
            let members : Finset String :=
              location.memberIds.foldl (fun s i => insert i s) ∅
            let p1 : Finset String × Option LocKey :=
              if location.name = "Home" then
                (insert "home" (∅ : Finset String) ∪ _types_finder location.pointLogs,
                  some (.lid location.id))
              else (∅, acc.2)
            let p2 : String × Finset String × Option LocKey :=
              if cfg.legacy ∧ cfg.stype = "power" ∧ location.hasServices then
                ("Home", insert "power" (insert "home" p1.1), some (.lid location.id))
              else (location.name, p1.1, p1.2)
            (dinsert (.lid location.id) ⟨p2.1, p2.2.1, members, none⟩ acc.1, p2.2.2)) acc).1,
          p.2.thermo = none by
      intro p hp
      exact h snap.locationsDoc ([], none) (by intro p hp; cases hp) p hp
    intro ls
    induction ls with
    | nil => intro acc hacc p hp; exact hacc p hp
    | cons l rest ih =>
      intro acc hacc p hp
      refine ih _ ?_ p hp
      intro q hq
      rcases mem_dinsert hq with h | h
      · subst h; rfl
      · exact hacc q h

lemma match_locations_thermo_none (cfg : Config) (snap : Snapshot) (st : MutState)
    (lh : List (LocKey × LocData) × Option LocKey)
    (h : (match_locations cfg snap st).1 = some lh) :
    ∀ p ∈ lh.1, p.2.thermo = none := by
  simp only [match_locations] at h
  cases hr : (get_all_appliances cfg snap
      ⟨st.gatewayId, st.heaterId,
        applyHomeUpd (get_all_locations cfg snap).2.2 st.homeLocation,
        st.thermoMasterId⟩).1 with
  | none => rw [hr] at h; cases h
  | some apps =>
    rw [hr] at h
    simp only [Option.some.injEq] at h
    subst h
    intro p hp
    rcases List.mem_map.mp hp with ⟨q, hq, he⟩
    have := get_all_locations_thermo_none cfg snap q hq
    rw [← he]
    exact this

lemma scan_core_lookup (legacy : Bool) (home : Option LocKey)
    (apps : List (AppKey × AppData)) (ls : List (LocKey × LocData))
    (loc : LocKey) (e : LocData) (t : ThermoData)
    (hn : ∀ p ∈ ls, p.2.thermo = none)
    (h2 : alookup loc (scan_core legacy ls home apps).1 = some e)
    (h3 : e.thermo = some t) :
    t = locThermo legacy apps loc := by
  rw [scan_core_fst] at h2
  induction ls with
  | nil => cases h2
  | cons le rest ih =>
    simp only [List.map_cons, alookup] at h2
    by_cases hl : le.1 = loc
    · rw [if_pos hl] at h2
      injection h2 with h2
      by_cases hq : ("thermostat" ∈ le.2.types ∧ some le.1 ≠ home) ∨
          (some le.1 = home ∧ legacy = true)
      · rw [if_pos hq] at h2
        rw [← h2] at h3
        simp only at h3
        injection h3 with h3
        rw [← h3, hl]
      · rw [if_neg hq] at h2
        rw [← h2] at h3
        rw [hn le (List.mem_cons_self le rest)] at h3
        cases h3
    · rw [if_neg hl] at h2
      exact ih (fun p hp => hn p (List.mem_cons_of_mem le hp)) h2

lemma buildAppliances_keys_nodup (cfg : Config) (snap : Snapshot)
    (ht gw : AppKey) (ls : List (LocKey × LocData)) (home : Option LocKey)
    (apps : List (AppKey × AppData))
    (h : buildAppliances cfg snap ht gw ls home = some apps) :
    (apps.map Prod.fst).Nodup := by
  unfold buildAppliances at h
  refine foldl_option_preserve _ (fun d => (d.map Prod.fst).Nodup)
    (fun x => rfl) ?_ snap.appliancesDoc [] (List.nodup_nil) apps h
  intro a x r hg hq
  simp only at hg
  by_cases hotg : x.cls = "open_therm_gateway"
  · rw [if_pos hotg] at hg
    injection hg with hg
    exact hg ▸ hq
  · rw [if_neg hotg] at hg
    cases hx : x.location with
    | some l =>
      rw [hx] at hg
      simp only [Option.some.injEq] at hg
      exact hg ▸ dinsert_keys_nodup _ _ _ hq
    | none =>
      rw [hx] at hg
      cases hh : (home.bind fun hk => alookup hk ls).map
          (fun hd => sharedHomeTypes snap hd.types) with
      | none => rw [hh] at hg; cases hg
      | some hts =>
        rw [hh] at hg
        simp only [Option.some.injEq] at hg
        exact hg ▸ dinsert_keys_nodup _ _ _ hq

lemma gaa_keys_nodup (cfg : Config) (snap : Snapshot) (st : MutState)
    (apps : List (AppKey × AppData))
    (h : (get_all_appliances cfg snap st).1 = some apps) :
    (apps.map Prod.fst).Nodup := by
  simp only [get_all_appliances, gaaOut] at h
  split at h
  · simp only [Option.some.injEq] at h
    subst h
    simp
  · exact buildAppliances_keys_nodup cfg snap _ _ _ _ apps h

lemma scan_thermo_of_lookup (cfg : Config) (snap : Snapshot) (st : MutState)
    (out : List (LocKey × LocData) × Option LocKey) (loc : LocKey)
    (e : LocData) (t : ThermoData)
    (h1 : (scan_thermostats cfg snap st).1 = some out)
    (h2 : alookup loc out.1 = some e) (h3 : e.thermo = some t) :
    ∃ apps, (get_all_appliances cfg snap (match_locations cfg snap st).2).1 = some apps ∧
      (apps.map Prod.fst).Nodup ∧ t = locThermo cfg.legacy apps loc := by
  simp only [scan_thermostats] at h1
  cases hm : (match_locations cfg snap st).1 with
  | none => rw [hm] at h1; cases h1
  | some lh =>
    rw [hm] at h1
    cases hr : (get_all_appliances cfg snap (match_locations cfg snap st).2).1 with
    | none => rw [hr] at h1; cases h1
    | some apps =>
      rw [hr] at h1
      simp only [Option.some.injEq] at h1
      subst h1
      refine ⟨apps, rfl, gaa_keys_nodup cfg snap _ apps hr, ?_⟩
      exact scan_core_lookup cfg.legacy lh.2 apps lh.1 loc e t
        (match_locations_thermo_none cfg snap st lh hm) h2 h3

lemma thermoCandidates_keys_sublist (legacy : Bool) (apps : List (AppKey × AppData))
    (loc : LocKey) :
    ((thermoCandidates legacy apps loc).map Prod.fst).Sublist (apps.map Prod.fst) := by
  induction apps with
  | nil => simp [thermoCandidates]
  | cons ap rest ih =>
    simp only [thermoCandidates, List.filterMap_cons] at ih ⊢
    cases hp : thermoPrio ap.2.cls with
    | none =>
      simp only [List.map_cons]
      exact ih.cons _
    | some p =>
      by_cases hm : appMatchesZone legacy loc ap.2
      · simp only [hm, if_true, List.map_cons]
        exact ih.cons₂ _
      · simp only [hm, if_false, List.map_cons]
        exact ih.cons _

lemma elect_inv :
    ∀ (cands : List (AppKey × ℕ)) (P : AppKey → Prop) (t : ThermoData),
      (cands.map Prod.fst).Nodup →
      (∀ c ∈ cands, ¬P c.1) →
      (∀ m, t.master = some m → P m) →
      (∀ x ∈ t.slaves, P x) →
      (∀ m, t.master = some m → m ∉ t.slaves) →
      (∀ m, (cands.foldl (fun t c => electStep t c.1 c.2) t).master = some m →
        P m ∨ m ∈ cands.map Prod.fst) ∧
      (∀ x ∈ (cands.foldl (fun t c => electStep t c.1 c.2) t).slaves,
        P x ∨ x ∈ cands.map Prod.fst) ∧
      (∀ m, (cands.foldl (fun t c => electStep t c.1 c.2) t).master = some m →
        m ∉ (cands.foldl (fun t c => electStep t c.1 c.2) t).slaves) := by
  intro cands
  induction cands with
  | nil =>
    intro P t _ _ hm hs hms
    exact ⟨fun m h => Or.inl (hm m h), fun x h => Or.inl (hs x h), fun m h => hms m h⟩
  | cons c rest ih =>
    intro P t hnd hP hm hs hms
    simp only [List.map_cons, List.nodup_cons] at hnd
    have hPc : ¬P c.1 := hP c (List.mem_cons_self c rest)
    have step := ih (fun k => P k ∨ k = c.1) (electStep t c.1 c.2) hnd.2
      (by
        intro c' hc' hor
        rcases hor with h | h
        · exact hP c' (List.mem_cons_of_mem c hc') h
        · exact hnd.1 (h ▸ List.mem_map_of_mem Prod.fst hc'))
      (by
        intro m hmm
        unfold electStep at hmm
        by_cases hc : t.masterPrio < c.2
        · rw [if_pos hc] at hmm
          simp only [Option.some.injEq] at hmm
          exact Or.inr hmm.symm
        · rw [if_neg hc] at hmm
          exact Or.inl (hm m hmm))
      (by
        intro x hx
        unfold electStep at hx
        by_cases hc : t.masterPrio < c.2
        · rw [if_pos hc] at hx
          simp only at hx
          cases hmt : t.master with
          | none => rw [hmt] at hx; exact Or.inl (hs x hx)
          | some m0 =>
            rw [hmt] at hx
            rcases Finset.mem_insert.mp hx with h | h
            · exact Or.inl (h ▸ hm m0 hmt)
            · exact Or.inl (hs x h)
        · rw [if_neg hc] at hx
          simp only at hx
          rcases Finset.mem_insert.mp hx with h | h
          · exact Or.inr h
          · exact Or.inl (hs x h))
      (by
        intro m hmm hin
        unfold electStep at hmm hin
        by_cases hc : t.masterPrio < c.2
        · rw [if_pos hc] at hmm hin
          simp only [Option.some.injEq] at hmm
          subst hmm
          simp only at hin
          cases hmt : t.master with
          | none =>
            rw [hmt] at hin
            exact hPc (hs _ hin)
          | some m0 =>
            rw [hmt] at hin
            rcases Finset.mem_insert.mp hin with h | h
            · exact hPc (h ▸ hm m0 hmt)
            · exact hPc (hs _ h)
        · rw [if_neg hc] at hmm hin
          simp only at hmm hin
          rcases Finset.mem_insert.mp hin with h | h
          · exact hPc (h ▸ hm m hmm)
          · exact hms m hmm h)
    refine ⟨?_, ?_, step.2.2⟩
    · intro m hmm
      rcases step.1 m (by simpa using hmm) with (h | h) | h
      · exact Or.inl h
      · exact Or.inr (by simp [h])
      · exact Or.inr (by simp [List.mem_cons_of_mem, h])
    · intro x hx
      rcases step.2.1 x (by simpa using hx) with (h | h) | h
      · exact Or.inl h
      · exact Or.inr (by simp [h])
      · exact Or.inr (by simp [List.mem_cons_of_mem, h])

lemma elect_master_not_mem_slaves (cands : List (AppKey × ℕ))
    (hnd : (cands.map Prod.fst).Nodup) (m : AppKey)
    (hm : (cands.foldl (fun t c => electStep t c.1 c.2)
        (⟨none, 0, ∅⟩ : ThermoData)).master = some m) :
    m ∉ (cands.foldl (fun t c => electStep t c.1 c.2)
        (⟨none, 0, ∅⟩ : ThermoData)).slaves := by
  have := elect_inv cands (fun _ => False) ⟨none, 0, ∅⟩ hnd
    (fun c _ h => h) (fun m h => by cases h) (fun x h => by cases h)
    (fun m h => by cases h)
  exact this.2.2 m hm

/-- C1: within each zone `scan_thermostats` processes, the final master
    priority is the maximum priority among the zone's candidates and the
    master is the earliest-scanned candidate attaining it (so strictly
    higher priorities demote, ties keep the earlier appliance); and every
    master/slave record a scan produces is exactly this election over the
    appliance dictionary. -/
theorem scan_thermostats_master_election :
    (∀ (legacy : Bool) (apps : List (AppKey × AppData)) (loc : LocKey),
      (locThermo legacy apps loc).masterPrio = maxPrio (thermoCandidates legacy apps loc) ∧
      (locThermo legacy apps loc).master =
        ((thermoCandidates legacy apps loc).find?
          (fun c => decide (c.2 = maxPrio (thermoCandidates legacy apps loc)))).map
          Prod.fst) ∧
    (∀ (cfg : Config) (snap : Snapshot) (st : MutState)
        (out : List (LocKey × LocData) × Option LocKey) (loc : LocKey)
        (e : LocData) (t : ThermoData),
      (scan_thermostats cfg snap st).1 = some out →
      alookup loc out.1 = some e → e.thermo = some t →
      t = locThermo cfg.legacy
        (((get_all_appliances cfg snap (match_locations cfg snap st).2).1).getD []) loc) := by
  constructor
  · intro legacy apps loc
    rw [locThermo_eq_elect]
    obtain ⟨hp, hm⟩ := elect_foldl_spec (thermoCandidates legacy apps loc) ⟨none, 0, ∅⟩
    refine ⟨by rw [hp]; exact Nat.zero_max _, ?_⟩
    rw [hm]
    by_cases h0 : (0 : ℕ) < maxPrio (thermoCandidates legacy apps loc)
    · rw [if_pos h0]
    · rw [if_neg h0]
      have hz : maxPrio (thermoCandidates legacy apps loc) = 0 := Nat.eq_zero_of_not_pos h0
      cases hf : (thermoCandidates legacy apps loc).find?
          (fun c => decide (c.2 = maxPrio (thermoCandidates legacy apps loc))) with
      | none => rfl
      | some c =>
        have hmem := List.mem_of_find?_eq_some hf
        rcases mem_thermoCandidates hmem with ⟨ap, _, hpr, _, _⟩
        have hpos := thermoPrio_pos hpr
        have := le_maxPrio hmem
        omega
  · intro cfg snap st out loc e t h1 h2 h3
    rcases scan_thermo_of_lookup cfg snap st out loc e t h1 h2 h3 with ⟨apps, ha, _, ht⟩
    rw [ha]
    exact ht

/-- C1 witness: in the concrete zone holding a zone thermostat (priority 2)
    and a radiator valve (priority 1), the election yields the zone
    thermostat as master with the valve as slave, and the scan result equals
    the election. -/
theorem scan_thermostats_master_election_witness :
    exZoneThermo = locThermo false
      (((get_all_appliances exCfg exSnap (match_locations exCfg exSnap exSt).2).1).getD [])
      (.lid "z1") ∧
    (locThermo false exApps (.lid "z1")).masterPrio =
      maxPrio (thermoCandidates false exApps (.lid "z1")) ∧
    exZoneThermo.master = some (some "zt1") ∧
    exZoneThermo.masterPrio = 2 ∧
    exZoneThermo.slaves = {some "rv1"} :=
  ⟨scan_thermostats_master_election.2 exCfg exSnap exSt exScanOut (.lid "z1")
      exZoneData exZoneThermo (by decide) (by decide) (by decide),
   (scan_thermostats_master_election.1 false exApps (.lid "z1")).1,
   by decide, by decide, by decide⟩

/-- C8: in every location record `scan_thermostats` returns, an elected
    master never sits in the same location's slaves set. -/
theorem master_not_in_slaves (cfg : Config) (snap : Snapshot) (st : MutState)
    (out : List (LocKey × LocData) × Option LocKey) (loc : LocKey)
    (e : LocData) (t : ThermoData) (m : AppKey)
    (h1 : (scan_thermostats cfg snap st).1 = some out)
    (h2 : alookup loc out.1 = some e)
    (h3 : e.thermo = some t)
    (h4 : t.master = some m) :
    m ∉ t.slaves := by
  rcases scan_thermo_of_lookup cfg snap st out loc e t h1 h2 h3 with ⟨apps, _, hnd, ht⟩
  subst ht
  rw [locThermo_eq_elect] at h4 ⊢
  exact elect_master_not_mem_slaves _
    ((thermoCandidates_keys_sublist cfg.legacy apps loc).nodup hnd) m h4

/-- C8 witness: the invariant applied to the concrete scanned zone, whose
    master is the zone thermostat. -/
theorem master_not_in_slaves_witness :
    some "zt1" ∉ exZoneThermo.slaves :=
  master_not_in_slaves exCfg exSnap exSt exScanOut (.lid "z1") exZoneData exZoneThermo
    (some "zt1") (by decide) (by decide) (by decide) (by decide)

lemma alookup_map_pair {α β γ : Type} [DecidableEq α] (g : α → β → γ) (k : α)
    (l : List (α × β)) :
    alookup k (l.map (fun p => (p.1, g p.1 p.2))) = (alookup k l).map (g k) := by
  induction l with
  | nil => rfl
  | cons p t ih =>
    simp only [List.map_cons, alookup]
    by_cases hp : p.1 = k
    · rw [if_pos hp, if_pos hp, hp]
      rfl
    · rw [if_neg hp, if_neg hp]
      exact ih

lemma devTransform_spec (th : List (LocKey × LocData) × Option LocKey)
    (k : AppKey) (d : AppData) :
    devTransform th k d =
      ⟨d.name, d.types,
        if slaveOverride th.1 k d.location then "thermo_sensor" else d.cls,
        if d.location = none then th.2 else d.location⟩ := by
  unfold devTransform slaveOverride
  cases hloc : d.location with
  | none => simp
  | some lk =>
    simp only [hloc, Option.bind_some]
    cases halo : alookup lk th.1 with
    | none =>
      simp [halo]
      rw [← hloc]
    | some e =>
      cases het : e.thermo with
      | none =>
        simp [halo, het]
        rw [← hloc]
      | some t =>
        by_cases hsl : k ∈ t.slaves
        · simp [halo, het, hsl, hloc]
        · simp [halo, het, hsl]
          rw [← hloc]

lemma buildAppliances_cls (cfg : Config) (snap : Snapshot)
    (ht gw : AppKey) (ls : List (LocKey × LocData)) (home : Option LocKey)
    (apps : List (AppKey × AppData))
    (h : buildAppliances cfg snap ht gw ls home = some apps) :
    ∀ p ∈ apps, p.2.cls ≠ "open_therm_gateway" := by
  unfold buildAppliances at h
  refine foldl_option_preserve _ (fun d => ∀ p ∈ d, p.2.cls ≠ "open_therm_gateway")
    (fun x => rfl) ?_ snap.appliancesDoc [] (by intro p hp; cases hp) apps h
  intro a x r hg hq
  simp only at hg
  by_cases hotg : x.cls = "open_therm_gateway"
  · rw [if_pos hotg] at hg
    injection hg with hg
    exact hg ▸ hq
  · rw [if_neg hotg] at hg
    cases hx : x.location with
    | some l =>
      rw [hx] at hg
      simp only [Option.some.injEq] at hg
      subst hg
      intro p hp
      rcases mem_dinsert hp with h | h
      · subst h; exact hotg
      · exact hq p h
    | none =>
      rw [hx] at hg
      cases hh : (home.bind fun hk => alookup hk ls).map
          (fun hd => sharedHomeTypes snap hd.types) with
      | none => rw [hh] at hg; cases hg
      | some hts =>
        rw [hh] at hg
        simp only [Option.some.injEq] at hg
        subst hg
        intro p hp
        rcases mem_dinsert hp with h | h
        · subst h; exact hotg
        · exact hq p h

lemma gaa_cls_ne_otg (cfg : Config) (snap : Snapshot) (st : MutState)
    (apps : List (AppKey × AppData))
    (h : (get_all_appliances cfg snap st).1 = some apps) :
    ∀ p ∈ apps, p.2.cls ≠ "open_therm_gateway" := by
  simp only [get_all_appliances, gaaOut] at h
  split at h
  · simp only [Option.some.injEq] at h
    subst h
    intro p hp
    simp only [List.mem_singleton] at hp
    subst hp
    show "gateway" ≠ "open_therm_gateway"
    decide
  · exact buildAppliances_cls cfg snap _ _ _ _ apps h

/-- C7: a class-`open_therm_gateway` appliance is discarded while building
    the appliance dictionary, so no entry of `get_all_appliances` and hence
    no entry of `get_all_devices` carries that class. -/
theorem open_therm_gateway_excluded :
    (∀ (cfg : Config) (snap : Snapshot) (st : MutState)
        (apps : List (AppKey × AppData)),
      (get_all_appliances cfg snap st).1 = some apps →
      ∀ p ∈ apps, p.2.cls ≠ "open_therm_gateway") ∧
    (∀ (cfg : Config) (snap : Snapshot) (st : MutState)
        (devs : List (AppKey × AppData)),
      (get_all_devices cfg snap st).1 = some devs →
      ∀ p ∈ devs, p.2.cls ≠ "open_therm_gateway") := by
  refine ⟨gaa_cls_ne_otg, ?_⟩
  intro cfg snap st devs h p hp
  simp only [get_all_devices] at h
  cases hr : (get_all_appliances cfg snap st).1 with
  | none => rw [hr] at h; cases h
  | some appliances =>
    rw [hr] at h
    cases hsc : (scan_thermostats cfg snap (get_all_appliances cfg snap st).2).1 with
    | none => rw [hsc] at h; cases h
    | some th =>
      rw [hsc] at h
      simp only [Option.some.injEq] at h
      subst h
      rcases List.mem_map.mp hp with ⟨ap, hap, he⟩
      have hbase : ap.2.cls ≠ "open_therm_gateway" :=
        gaa_cls_ne_otg cfg snap st appliances hr ap hap
      rw [← he]
      simp only [devTransform_spec]
      by_cases hsl : slaveOverride th.1 ap.1 ap.2.location
      · simp [hsl]
      · simp [hsl]
        exact hbase

/-- C7 witness: the theorem applied to the concrete snapshot that contains
    an `open_therm_gateway` appliance. -/
theorem open_therm_gateway_excluded_witness :
    (exApps.headD (none, defAppData)).2.cls ≠ "open_therm_gateway" ∧
    (exDevs.headD (none, defAppData)).2.cls ≠ "open_therm_gateway" :=
  ⟨open_therm_gateway_excluded.1 exCfg exSnap exSt exApps (by decide) _
      (by decide),
   open_therm_gateway_excluded.2 exCfg exSnap exSt exDevs (by decide) _
      (by decide)⟩

/-- C10: `get_all_devices` keeps every appliance entry keyed as before, with
    its class rewritten to `thermo_sensor` exactly when its explicit
    location is a scanned zone whose slaves set contains the appliance, and
    with an unset location replaced by the home location; name and types are
    untouched. -/
theorem slave_class_override (cfg : Config) (snap : Snapshot) (st : MutState)
    (apps : List (AppKey × AppData)) (th : List (LocKey × LocData) × Option LocKey)
    (devs : List (AppKey × AppData))
    (ha : (get_all_appliances cfg snap st).1 = some apps)
    (hs : (scan_thermostats cfg snap (get_all_appliances cfg snap st).2).1 = some th)
    (hd : (get_all_devices cfg snap st).1 = some devs) :
    ∀ (k : AppKey) (d : AppData), alookup k apps = some d →
      alookup k devs = some
        ⟨d.name, d.types,
          if slaveOverride th.1 k d.location then "thermo_sensor" else d.cls,
          if d.location = none then th.2 else d.location⟩ := by
  intro k d hk
  simp only [get_all_devices, ha, hs, Option.some.injEq] at hd
  subst hd
  rw [alookup_map_pair (devTransform th) k apps, hk]
  simp [devTransform_spec]

/-- C10 witness: in the concrete scenario the radiator valve, slave of its
    zone, is re-classed `thermo_sensor` by `get_all_devices`. -/
theorem slave_class_override_witness :
    alookup (some "rv1") exDevs = some
      ⟨"rv1-name", ({"thermostat"} : Finset String),
        if slaveOverride exScanOut.1 (some "rv1") (some (.lid "z1")) then "thermo_sensor"
        else "thermostatic_radiator_valve",
        if (some (LocKey.lid "z1") : Option LocKey) = none then exScanOut.2
        else some (.lid "z1")⟩ :=
  slave_class_override exCfg exSnap exSt exApps exScanOut exDevs (by decide) (by decide)
    (by decide) (some "rv1")
    ⟨"rv1-name", {"thermostat"}, "thermostatic_radiator_valve", some (.lid "z1")⟩
    (by decide)

lemma applyHomeUpd_idem (u : Option (Option String)) (h : Option String) :
    applyHomeUpd u (applyHomeUpd u h) = applyHomeUpd u h := by
  cases u <;> rfl

lemma htUpd_idem (cfg : Config) (snap : Snapshot) (h : Option String) :
    htUpd cfg snap (htUpd cfg snap h) = htUpd cfg snap h := by
  unfold htUpd
  by_cases hc : cfg.legacy = true ∧ cfg.stype = "power"
  · simp only [if_pos hc]
  · simp only [if_neg hc]
    cases hl : (snap.appliancesDoc.filter (fun a => a.cls = "heater_central")).getLast? <;>
      simp only [hl]

lemma hmUpd_idem (cfg : Config) (snap : Snapshot) (h : Option String) :
    hmUpd cfg snap (hmUpd cfg snap h) = hmUpd cfg snap h :=
  applyHomeUpd_idem _ _

lemma gwUpd_stable (cfg : Config) (snap : Snapshot) (gw ht : Option String) :
    gwUpd cfg snap (gwUpd cfg snap gw ht) (htUpd cfg snap ht) = gwUpd cfg snap gw ht := by
  unfold gwUpd
  by_cases h1 : cfg.legacy = true ∧ cfg.stype = "power"
  · simp only [if_pos h1]
  · simp only [if_neg h1]
    by_cases h2 : cfg.legacy = true ∧ cfg.stype = "thermostat"
    · simp only [if_pos h2]
      exact htUpd_idem cfg snap ht
    · simp only [if_neg h2]
      cases hl : (snap.appliancesDoc.filter (fun a => a.cls = "gateway")).getLast? <;>
        simp only [hl]

lemma A_core_congr (cfg : Config) (snap : Snapshot) {s1 s2 : MutState}
    (h : coreOf s1 = coreOf s2) :
    coreOf (appStateUpd cfg snap s1) = coreOf (appStateUpd cfg snap s2) := by
  simp only [coreOf, Prod.mk.injEq] at h
  obtain ⟨h1, h2, h3⟩ := h
  simp only [coreOf, appStateUpd, h1, h2, h3]

lemma A_idem_core (cfg : Config) (snap : Snapshot) (s : MutState) :
    coreOf (appStateUpd cfg snap (appStateUpd cfg snap s)) =
      coreOf (appStateUpd cfg snap s) := by
  simp only [coreOf, appStateUpd, Prod.mk.injEq]
  exact ⟨gwUpd_stable cfg snap _ _, htUpd_idem cfg snap _, hmUpd_idem cfg snap _⟩

lemma A_homeApply_core (cfg : Config) (snap : Snapshot) (s : MutState) :
    coreOf (appStateUpd cfg snap ⟨s.gatewayId, s.heaterId,
      applyHomeUpd (get_all_locations cfg snap).2.2 s.homeLocation, s.thermoMasterId⟩) =
    coreOf (appStateUpd cfg snap s) := by
  simp only [coreOf, appStateUpd, Prod.mk.injEq]
  exact ⟨trivial, trivial, applyHomeUpd_idem _ _⟩

lemma gaa_fst_congr (cfg : Config) (snap : Snapshot) {s1 s2 : MutState}
    (h : coreOf (appStateUpd cfg snap s1) = coreOf (appStateUpd cfg snap s2)) :
    (get_all_appliances cfg snap s1).1 = (get_all_appliances cfg snap s2).1 := by
  simp only [coreOf, Prod.mk.injEq] at h
  obtain ⟨h1, h2, h3⟩ := h
  simp only [get_all_appliances, h1, h2, h3]

lemma gaa_snd (cfg : Config) (snap : Snapshot) (s : MutState) :
    (get_all_appliances cfg snap s).2 = appStateUpd cfg snap s := rfl

lemma ml_fst_congr (cfg : Config) (snap : Snapshot) {s1 s2 : MutState}
    (h : coreOf (appStateUpd cfg snap s1) = coreOf (appStateUpd cfg snap s2)) :
    (match_locations cfg snap s1).1 = (match_locations cfg snap s2).1 := by
  have hg : (get_all_appliances cfg snap (⟨s1.gatewayId, s1.heaterId,
      applyHomeUpd (get_all_locations cfg snap).2.2 s1.homeLocation,
      s1.thermoMasterId⟩ : MutState)).1 =
    (get_all_appliances cfg snap (⟨s2.gatewayId, s2.heaterId,
      applyHomeUpd (get_all_locations cfg snap).2.2 s2.homeLocation,
      s2.thermoMasterId⟩ : MutState)).1 := by
    apply gaa_fst_congr
    rw [A_homeApply_core, A_homeApply_core]
    exact h
  simp only [match_locations]
  rw [← hg]
  cases hc : (get_all_appliances cfg snap (⟨s1.gatewayId, s1.heaterId,
      applyHomeUpd (get_all_locations cfg snap).2.2 s1.homeLocation,
      s1.thermoMasterId⟩ : MutState)).1 <;> rfl

lemma ml_snd (cfg : Config) (snap : Snapshot) (s : MutState) :
    (match_locations cfg snap s).2 = appStateUpd cfg snap ⟨s.gatewayId, s.heaterId,
      applyHomeUpd (get_all_locations cfg snap).2.2 s.homeLocation, s.thermoMasterId⟩ := by
  simp only [match_locations]
  cases hc : (get_all_appliances cfg snap (⟨s.gatewayId, s.heaterId,
      applyHomeUpd (get_all_locations cfg snap).2.2 s.homeLocation,
      s.thermoMasterId⟩ : MutState)).1 <;> rfl

lemma scan_fst_congr (cfg : Config) (snap : Snapshot) {s1 s2 : MutState}
    (h : coreOf (appStateUpd cfg snap s1) = coreOf (appStateUpd cfg snap s2)) :
    (scan_thermostats cfg snap s1).1 = (scan_thermostats cfg snap s2).1 := by
  have hm1 : (match_locations cfg snap s1).1 = (match_locations cfg snap s2).1 :=
    ml_fst_congr cfg snap h
  have hcore : coreOf (appStateUpd cfg snap (match_locations cfg snap s1).2) =
      coreOf (appStateUpd cfg snap (match_locations cfg snap s2).2) := by
    rw [ml_snd, ml_snd, A_idem_core, A_idem_core, A_homeApply_core, A_homeApply_core]
    exact h
  have hg : (get_all_appliances cfg snap (match_locations cfg snap s1).2).1 =
      (get_all_appliances cfg snap (match_locations cfg snap s2).2).1 :=
    gaa_fst_congr cfg snap hcore
  simp only [scan_thermostats]
  rw [← hm1, ← hg]
  cases hc : (match_locations cfg snap s1).1 with
  | none => rfl
  | some lh =>
    cases hd : (get_all_appliances cfg snap (match_locations cfg snap s1).2).1 <;> rfl

lemma scan_snd_core (cfg : Config) (snap : Snapshot) (s : MutState) :
    coreOf (scan_thermostats cfg snap s).2 = coreOf (appStateUpd cfg snap s) := by
  simp only [scan_thermostats]
  cases hc : (match_locations cfg snap s).1 with
  | none =>
    show coreOf (match_locations cfg snap s).2 = _
    rw [ml_snd, A_homeApply_core]
  | some lh =>
    cases hd : (get_all_appliances cfg snap (match_locations cfg snap s).2).1 with
    | none =>
      show coreOf (get_all_appliances cfg snap (match_locations cfg snap s).2).2 = _
      rw [gaa_snd, ml_snd, A_idem_core, A_homeApply_core]
    | some apps =>
      show coreOf (get_all_appliances cfg snap (match_locations cfg snap s).2).2 = _
      rw [gaa_snd, ml_snd, A_idem_core, A_homeApply_core]

lemma gad_fst_congr (cfg : Config) (snap : Snapshot) {s1 s2 : MutState}
    (h : coreOf (appStateUpd cfg snap s1) = coreOf (appStateUpd cfg snap s2)) :
    (get_all_devices cfg snap s1).1 = (get_all_devices cfg snap s2).1 := by
  have hg : (get_all_appliances cfg snap s1).1 = (get_all_appliances cfg snap s2).1 :=
    gaa_fst_congr cfg snap h
  have hs : (scan_thermostats cfg snap (get_all_appliances cfg snap s1).2).1 =
      (scan_thermostats cfg snap (get_all_appliances cfg snap s2).2).1 := by
    apply scan_fst_congr
    rw [gaa_snd, gaa_snd, A_idem_core, A_idem_core]
    exact h
  simp only [get_all_devices]
  rw [← hg, ← hs]
  cases hc : (get_all_appliances cfg snap s1).1 with
  | none => rfl
  | some appliances =>
    cases hd : (scan_thermostats cfg snap (get_all_appliances cfg snap s1).2).1 <;> rfl

lemma gad_snd_core (cfg : Config) (snap : Snapshot) (s : MutState) :
    coreOf (get_all_devices cfg snap s).2 = coreOf (appStateUpd cfg snap s) := by
  simp only [get_all_devices]
  cases hc : (get_all_appliances cfg snap s).1 with
  | none =>
    show coreOf (get_all_appliances cfg snap s).2 = _
    rw [gaa_snd]
  | some appliances =>
    cases hd : (scan_thermostats cfg snap (get_all_appliances cfg snap s).2).1 with
    | none =>
      show coreOf (scan_thermostats cfg snap (get_all_appliances cfg snap s).2).2 = _
      rw [scan_snd_core, gaa_snd, A_idem_core]
    | some th =>
      show coreOf (scan_thermostats cfg snap (get_all_appliances cfg snap s).2).2 = _
      rw [scan_snd_core, gaa_snd, A_idem_core]

lemma gddOut_congr (cfg : Config) (snap : Snapshot) (now : Now) (dev : AppKey)
    {r1 r2 : Option (List (AppKey × AppData)) × MutState}
    (h1 : r1.1 = r2.1) (hg : r1.2.gatewayId = r2.2.gatewayId)
    (hh : r1.2.heaterId = r2.2.heaterId)
    (hm : r1.2.homeLocation = r2.2.homeLocation) :
    gddOut cfg snap now dev r1 = gddOut cfg snap now dev r2 := by
  simp only [gddOut, gatewayMerge, h1, hg, hh, hm]

lemma gdd_fst_congr (cfg : Config) (snap : Snapshot) (now : Now) (dev : AppKey)
    {s1 s2 : MutState}
    (h : coreOf (appStateUpd cfg snap s1) = coreOf (appStateUpd cfg snap s2)) :
    (get_device_data cfg snap now dev s1).1 = (get_device_data cfg snap now dev s2).1 := by
  have h1 : (get_all_devices cfg snap s1).1 = (get_all_devices cfg snap s2).1 :=
    gad_fst_congr cfg snap h
  have hcc : coreOf (get_all_devices cfg snap s1).2 =
      coreOf (get_all_devices cfg snap s2).2 := by
    rw [gad_snd_core, gad_snd_core, h]
  simp only [coreOf, Prod.mk.injEq] at hcc
  exact gddOut_congr cfg snap now dev h1 hcc.1 hcc.2.1 hcc.2.2

lemma gdd_snd_core (cfg : Config) (snap : Snapshot) (now : Now) (dev : AppKey)
    (s : MutState) :
    coreOf (get_device_data cfg snap now dev s).2 = coreOf (appStateUpd cfg snap s) :=
  gad_snd_core cfg snap s

lemma cycle_fold_congr (cfg : Config) (snap : Snapshot) (now : Now)
    (devs : List AppKey) :
    ∀ (a1 a2 : List (Option (List (String × DVal)))) (s1 s2 : MutState),
      a1 = a2 →
      coreOf (appStateUpd cfg snap s1) = coreOf (appStateUpd cfg snap s2) →
      (devs.foldl (cycleStep cfg snap now) (a1, s1)).1 =
        (devs.foldl (cycleStep cfg snap now) (a2, s2)).1 := by
  induction devs with
  | nil =>
    intro a1 a2 s1 s2 ha _
    simpa using ha
  | cons d t ih =>
    intro a1 a2 s1 s2 ha hs
    simp only [List.foldl_cons, cycleStep]
    exact ih _ _ _ _
      (by rw [ha, gdd_fst_congr cfg snap now d hs])
      (A_core_congr cfg snap (by rw [gdd_snd_core, gdd_snd_core, hs]))

lemma cycle_fold_core (cfg : Config) (snap : Snapshot) (now : Now)
    (devs : List AppKey) :
    ∀ (a : List (Option (List (String × DVal)))) (s : MutState),
      coreOf (appStateUpd cfg snap (devs.foldl (cycleStep cfg snap now) (a, s)).2) =
        coreOf (appStateUpd cfg snap s) := by
  induction devs with
  | nil => intro a s; rfl
  | cons d t ih =>
    intro a s
    simp only [List.foldl_cons, cycleStep]
    rw [ih]
    rw [A_core_congr cfg snap (gdd_snd_core cfg snap now d s), A_idem_core]

/-- C9: the resolution pipeline is a pure function of the document snapshot
    and the clock reading: querying every device id a second time, starting
    from whatever mutable state the first cycle left behind, reproduces the
    first cycle's device records exactly. -/
theorem pipeline_idempotent (cfg : Config) (snap : Snapshot) (now : Now)
    (devs : List AppKey) (st : MutState) :
    (runCycle cfg snap now devs ((runCycle cfg snap now devs st).2)).1 =
      (runCycle cfg snap now devs st).1 := by
  unfold runCycle
  exact cycle_fold_congr cfg snap now devs [] [] _ st rfl
    (cycle_fold_core cfg snap now devs [] st)

lemma intervalCumulative_wp (a : Appliance) (m name0 : String)
    (data : List (String × DVal))
    (h1 : name0 ++ "_interval" ≠ "water_pressure")
    (h2 : name0 ++ "_cumulative" ≠ "water_pressure")
    (h3 : name0 ++ "_interval" ++ "_cumulative" ≠ "water_pressure") :
    alookup "water_pressure" (intervalCumulative a m name0 data) =
      alookup "water_pressure" data := by
  cases hi : findPair m a.intervalLogs with
  | none =>
    cases hcu : findPair m a.cumulativeLogs with
    | none => simp only [intervalCumulative, hi, hcu]
    | some tc =>
      simp only [intervalCumulative, hi, hcu]
      exact alookup_dinsert_ne _ _ _ _ (Ne.symm h2)
  | some ti =>
    cases hcu : findPair m a.cumulativeLogs with
    | none =>
      simp only [intervalCumulative, hi, hcu]
      exact alookup_dinsert_ne _ _ _ _ (Ne.symm h1)
    | some tc =>
      simp only [intervalCumulative, hi, hcu]
      rw [alookup_dinsert_ne _ _ _ _ (Ne.symm h3)]
      exact alookup_dinsert_ne _ _ _ _ (Ne.symm h1)

lemma measStep_wp_other (legacy : Bool) (a : Appliance)
    (data : List (String × DVal)) (mn : String × String)
    (h0 : mn.1 ≠ "central_heater_water_pressure")
    (h1 : mn.2 ≠ "water_pressure")
    (h2 : mn.2 ++ "_interval" ≠ "water_pressure")
    (h3 : mn.2 ++ "_cumulative" ≠ "water_pressure")
    (h4 : mn.2 ++ "_interval" ++ "_cumulative" ≠ "water_pressure") :
    ∃ data', measStep legacy a (some data) mn = some data' ∧
      alookup "water_pressure" data' = alookup "water_pressure" data := by
  cases hl : findLog mn.1 a.pointLogs with
  | none =>
    simp only [measStep, hl]
    exact ⟨_, rfl, intervalCumulative_wp a mn.1 mn.2 data h2 h3 h4⟩
  | some log =>
    simp only [measStep, hl]
    by_cases hb : legacy = true ∧ mn.1 = "domestic_hot_water_state"
    · rw [if_pos hb]
      exact ⟨data, rfl, rfl⟩
    · rw [if_neg hb, if_neg h0]
      refine ⟨_, rfl, ?_⟩
      rw [intervalCumulative_wp a mn.1 mn.2 _ h2 h3 h4]
      exact alookup_dinsert_ne _ _ _ _ (Ne.symm h1)

lemma measFold_wp (legacy : Bool) (a : Appliance) :
    ∀ (ms : List (String × String)) (data : List (String × DVal)),
      (∀ mn ∈ ms, mn.1 ≠ "central_heater_water_pressure" ∧
        mn.2 ≠ "water_pressure" ∧
        mn.2 ++ "_interval" ≠ "water_pressure" ∧
        mn.2 ++ "_cumulative" ≠ "water_pressure" ∧
        mn.2 ++ "_interval" ++ "_cumulative" ≠ "water_pressure") →
      ∃ data', ms.foldl (measStep legacy a) (some data) = some data' ∧
        alookup "water_pressure" data' = alookup "water_pressure" data
  | [], data, _ => ⟨data, rfl, rfl⟩
  | mn :: t, data, h => by
    obtain ⟨h0, h1, h2, h3, h4⟩ := h mn (List.mem_cons_self mn t)
    obtain ⟨d1, hd1, hw1⟩ := measStep_wp_other legacy a data mn h0 h1 h2 h3 h4
    obtain ⟨d2, hd2, hw2⟩ :=
      measFold_wp legacy a t d1 (fun x hx => h x (List.mem_cons_of_mem mn hx))
    exact ⟨d2, by rw [List.foldl_cons, hd1]; exact hd2, by rw [hw2, hw1]⟩

/-- C4: when the single appliance element matching a device id carries a
    `central_heater_water_pressure` point log with a parseable value, a
    reading strictly above `3.5` leaves no `water_pressure` key in the
    record `get_appliance_data` returns (still a successful, non-error
    result), while a reading at or below `3.5` is normalized with
    `_format_measure` and included. -/
theorem water_pressure_filter (cfg : Config) (snap : Snapshot) (devId : AppKey)
    (a : Appliance) (pl : PointLog) (q : ℚ)
    (hsearch : ((if cfg.legacy then snap.domainObjects.appliances
        else snap.appliancesDoc).filter (fun x => x.id = pyStr devId)) = [a])
    (hlog : findLog "central_heater_water_pressure" a.pointLogs = some pl)
    (hq : pyFloatParse pl.text = some q) :
    ((3.5 : ℚ) < nearestDouble q →
      (get_appliance_data cfg snap devId).map (alookup "water_pressure") =
        some none) ∧
    (nearestDouble q ≤ 3.5 →
      (get_appliance_data cfg snap devId).map (alookup "water_pressure") =
        some (some (_format_measure pl.text))) := by
  have hfold : get_appliance_data cfg snap devId =
      DEVICE_MEASUREMENTS.foldl (measStep cfg.legacy a) (some []) := by
    simp only [get_appliance_data, hsearch, List.foldl_cons, List.foldl_nil]
  have hsplit : DEVICE_MEASUREMENTS = DEVICE_MEASUREMENTS.take 14 ++
      ("central_heater_water_pressure", "water_pressure") ::
        DEVICE_MEASUREMENTS.drop 15 := by decide
  obtain ⟨dpre, hpre, hwpre⟩ :=
    measFold_wp cfg.legacy a (DEVICE_MEASUREMENTS.take 14) [] (by decide)
  have hstep : measStep cfg.legacy a (some dpre)
      ("central_heater_water_pressure", "water_pressure") =
      if (3.5 : ℚ) < nearestDouble q then some dpre
      else some (intervalCumulative a "central_heater_water_pressure"
        "water_pressure" (dinsert "water_pressure" (_format_measure pl.text) dpre)) := by
    simp only [measStep, hlog, hq]
    rw [if_neg (fun hcontr => absurd hcontr.2 (by decide))]
    simp
  constructor
  · intro hgt
    obtain ⟨dfin, hpost, hwpost⟩ :=
      measFold_wp cfg.legacy a (DEVICE_MEASUREMENTS.drop 15) dpre (by decide)
    have hres : get_appliance_data cfg snap devId = some dfin := by
      rw [hfold, hsplit, List.foldl_append, hpre, List.foldl_cons, hstep,
        if_pos hgt]
      exact hpost
    rw [hres]
    show some (alookup "water_pressure" dfin) = some none
    rw [hwpost, hwpre]
    rfl
  · intro hle
    obtain ⟨dfin, hpost, hwpost⟩ :=
      measFold_wp cfg.legacy a (DEVICE_MEASUREMENTS.drop 15)
        (intervalCumulative a "central_heater_water_pressure" "water_pressure"
          (dinsert "water_pressure" (_format_measure pl.text) dpre)) (by decide)
    have hres : get_appliance_data cfg snap devId = some dfin := by
      rw [hfold, hsplit, List.foldl_append, hpre, List.foldl_cons, hstep,
        if_neg (not_lt.mpr hle)]
      exact hpost
    rw [hres]
    show some (alookup "water_pressure" dfin) = some (some (_format_measure pl.text))
    rw [hwpost, intervalCumulative_wp a _ _ _ (by decide) (by decide) (by decide),
      alookup_dinsert_self]

/-- C4 witness: a `4.0` water-pressure reading is dropped from the record,
    a `2.1` reading is kept (normalized to the rational `21/10`). -/
theorem water_pressure_filter_witness :
    (get_appliance_data exCfg (exPressureSnap "4.0") (some "ht1")).map
        (alookup "water_pressure") = some none ∧
    (get_appliance_data exCfg (exPressureSnap "2.1") (some "ht1")).map
        (alookup "water_pressure") = some (some (_format_measure "2.1")) :=
  ⟨(water_pressure_filter exCfg (exPressureSnap "4.0") (some "ht1")
      (exPressureApp "4.0") ⟨"central_heater_water_pressure", "4.0", none⟩ 4
      (by decide) (by decide) (by decide)).1 (by decide),
   (water_pressure_filter exCfg (exPressureSnap "2.1") (some "ht1")
      (exPressureApp "2.1") ⟨"central_heater_water_pressure", "2.1", none⟩ (21/10)
      (by decide) (by decide) (by decide)).2 (by decide)⟩
